import Mathlib

/-!
Verification development for the tscat catalogue engine (SciQLop/tscat).

The definitions below are a shallow embedding of the Python sources:
`tscat/base.py` (entity/attribute model, sessions, queries),
`tscat/import_export.py` (JSON bundle reconciliation) and
`tscat/orm_sqlalchemy/__init__.py` (predicate compilation, query building).

Python objects are modelled by their instance dictionary (an association
list from attribute name to a dynamic value); backend writes are collected
in an explicit write list; exceptions become explicit error values.
Datetimes are modelled as integers with `toString` standing in for
`datetime.isoformat` and `String.toInt?` for `datetime.fromisoformat`
(only injectivity and round-tripping of the encoding matter to the code).
-/

namespace Tscat

/-- Literal (Python) values that can appear inside a list value. -/
inductive PyLit where
  | noneL : PyLit
  | b (v : Bool) : PyLit
  | i (v : Int) : PyLit
  | s (v : String) : PyLit
deriving DecidableEq, Repr

/-- Dynamic (Python) values stored in an instance dictionary. -/
inductive PyVal where
  | noneV : PyVal
  | b (v : Bool) : PyVal
  | i (v : Int) : PyVal
  | s (v : String) : PyVal
  | dtv (t : Int) : PyVal
  | list (l : List PyLit) : PyVal
  | ref (id : Nat) : PyVal
deriving DecidableEq, Repr

/-- An instance `__dict__`: insertion-ordered mapping from attribute name to value. -/
abbrev PyDict := List (String × PyVal)

/-- Look an attribute up in an instance dictionary. -/
def dget (d : PyDict) (k : String) : Option PyVal :=
  match d with
  | [] => none
  | (k', v) :: rest => if k' = k then some v else dget rest k

/-- Python dict assignment: replace the value in place if the key exists, else append. -/
def dset (d : PyDict) (k : String) (v : PyVal) : PyDict :=
  match d with
  | [] => [(k, v)]
  | (k', v') :: rest => if k' = k then (k, v) :: rest else (k', v') :: dset rest k v

/-- Python `del d[k]`: remove the first binding of `k`. -/
def ddel (d : PyDict) (k : String) : PyDict :=
  match d with
  | [] => []
  | (k', v') :: rest => if k' = k then rest else (k', v') :: ddel rest k

/-- Key membership in an instance dictionary (`hasattr`). -/
def dhas (d : PyDict) (k : String) : Bool :=
  (dget d k).isSome

/-- The attribute-name pattern from `base.py` (`_valid_key`), `^[A-Za-z][A-Za-z_0-9]*$`. -/
def validKey (s : String) : Bool :=
  match s.toList with
  | [] => false
  | c :: cs => c.isAlpha && cs.all (fun c => c.isAlpha || c.isDigit || c = '_')

/-- Python's `str.strip('{}')`: drop leading and trailing brace characters. -/
def stripBraces (l : List Char) : List Char :=
  ((l.dropWhile (fun c => c = '{' || c = '}')).reverse.dropWhile
      (fun c => c = '{' || c = '}')).reverse

/-- The format check performed by Python's `uuid.UUID(value, version=4)`, as
used by `_Event.__setattr__` / `_Catalogue.__setattr__`: the string is
normalised (braces stripped, hyphens removed; the removal of literal
`urn:` / `uuid:` markers of the stdlib is not modelled) and must then
consist of exactly 32 hexadecimal digits.  Crucially, the requested
version is never verified against the input: the stdlib constructor
overwrites the version bits of the result instead of checking them, so any
well-formed uuid string of any version passes. -/
def pyUuidOk (u : String) : Bool :=
  let l := (stripBraces u.toList).filter (fun c => c ≠ '-')
  l.length == 32 && l.all (fun c => c.isDigit || ('a' ≤ c && c ≤ 'f') || ('A' ≤ c && c ≤ 'F'))

/-- `_verify_attribute_names`: every kwargs key must match the key pattern. -/
def verifyAttributeNames (kwargs : PyDict) : Bool :=
  kwargs.all (fun kv => validKey kv.1)

/-- Errors surfaced by entity operations (Python exception kinds). -/
inductive PyErr where
  /-- `ValueError` (bad field value, invalid uuid, bad attribute key). -/
  | valueError (msg : String)
  /-- `IndexError('Fixed keys cannot be deleted.')` raised by `__delattr__`. -/
  | fixedKeyError
  /-- `ValueError` raised by `__getattr__` when `_backend_entity` is gone:
  an operation on an invalid (deleted) handle. -/
  | invalidHandle
  /-- `AttributeError` (missing attribute, or iterating a non-object). -/
  | attributeError
  /-- `TypeError` (comparison between incompatible runtime types). -/
  | typeError
deriving DecidableEq, Repr

/-- Backend write operations issued by write-through mutation. -/
inductive WriteOp where
  | updateField (entity : Nat) (key : String) (v : PyVal)
  | updateAttribute (entity : Nat) (key : String) (v : PyVal)
  | deleteAttribute (entity : Nat) (key : String)
  | addEvent (entity : Nat)
  | addCatalogue (entity : Nat)
  | removeOp (entity : Nat) (permanently : Bool)
  | restoreOp (entity : Nat)
deriving DecidableEq, Repr

/-- Outcome of an operation on an entity handle: the resulting instance
dictionary, the backend writes performed, and the exception raised, if any
(side effects performed before a raise are kept, as in Python). -/
structure OpResult where
  d : PyDict
  writes : List WriteOp
  err : Option PyErr
deriving DecidableEq, Repr

/-- The `_in_ctor` flag read by `_BackendBasedEntity.__setattr__`. -/
def inCtor (d : PyDict) : Bool :=
  dget d "_in_ctor" == some (.b true)

/-- Attribute read on an entity (`__getattribute__` falling back to
`_BackendBasedEntity.__getattr__`): a name present in the instance
dictionary is returned from it; a missing `_backend_entity` raises the
invalid-handle `ValueError`; any other missing name raises `AttributeError`. -/
def entityGetAttr (d : PyDict) (name : String) : Except PyErr PyVal :=
  match dget d name with
  | some v => .ok v
  | none =>
    if name = "_backend_entity" then .error .invalidHandle
    else .error .attributeError

/-- `_BackendBasedEntity.__setattr__`: store the value in the instance
dictionary, then (outside the constructor) write it through to the backend —
fixed keys via `update_field`, pattern-matching keys via `update_attribute`,
anything else silently stays local.  The backend write needs
`_backend_entity`: on an invalidated handle it raises after the local store
already happened. -/
def baseSetAttr (fixedKeys : List String) (d : PyDict) (k : String) (v : PyVal) :
    OpResult :=
  let d' := dset d k v
  if k ≠ "_in_ctor" && !(inCtor d') then
    if fixedKeys.contains k then
      match dget d' "_backend_entity" with
      | some (.ref e) => ⟨d', [.updateField e k v], none⟩
      | some _ => ⟨d', [], some .typeError⟩
      | none => ⟨d', [], some .invalidHandle⟩
    else if validKey k then
      match dget d' "_backend_entity" with
      | some (.ref e) => ⟨d', [.updateAttribute e k v], none⟩
      | some _ => ⟨d', [], some .typeError⟩
      | none => ⟨d', [], some .invalidHandle⟩
    else ⟨d', [], none⟩
  else ⟨d', [], none⟩

/-- `_BackendBasedEntity.__delattr__`: the attribute is removed from the
instance dictionary first (`super().__delattr__`), and only then a fixed
key raises `IndexError` — the handle has already lost the field.  Variable
attributes are also deleted from the backend. -/
def entityDelAttr (fixedKeys : List String) (d : PyDict) (k : String) : OpResult :=
  if !(dhas d k) then ⟨d, [], some .attributeError⟩
  else
    let d' := ddel d k
    if fixedKeys.contains k then ⟨d', [], some .fixedKeyError⟩
    else if validKey k then
      match dget d' "_backend_entity" with
      | some (.ref e) => ⟨d', [.deleteAttribute e k], none⟩
      | some _ => ⟨d', [], some .typeError⟩
      | none => ⟨d', [], some .invalidHandle⟩
    else ⟨d', [], none⟩

/-- Names compared by `_BackendBasedEntity.__eq__`: all instance-dictionary
keys matching the attribute-name pattern — fixed fields and variable
attributes alike. -/
def validKeys (d : PyDict) : List String :=
  (d.map Prod.fst).filter (fun k => validKey k)

/-- Code-point lexicographic comparison of character lists (the string
ordering used by Python's `sorted`). -/
def charListLe : List Char → List Char → Bool
  | [], _ => true
  | _ :: _, [] => false
  | a :: as, b :: bs =>
    if a.toNat < b.toNat then true
    else if b.toNat < a.toNat then false
    else charListLe as bs

/-- Code-point lexicographic string comparison. -/
def strLe (a b : String) : Bool := charListLe a.toList b.toList

/-- Insertion of a string into a sorted list (helper for sorting key lists). -/
def insertSorted (x : String) : List String → List String
  | [] => [x]
  | y :: ys => if strLe x y then x :: y :: ys else y :: insertSorted x ys

/-- Sorting a key list (Python's `sorted`). -/
def sortKeys (l : List String) : List String :=
  l.foldr insertSorted []

/-- `_BackendBasedEntity.__eq__`: the sorted lists of pattern-matching
attribute names must coincide, and every such attribute must have equal
values in the two instance dictionaries. -/
def entityEq (d1 d2 : PyDict) : Bool :=
  sortKeys (validKeys d1) == sortKeys (validKeys d2) &&
    (validKeys d1).all (fun k => dget d1 k == dget d2 k)

/-- `_BackendBasedEntity.variable_attributes`: pattern-matching keys that
are not fixed keys. -/
def variableAttributes (fixedKeys : List String) (d : PyDict) : PyDict :=
  d.filter (fun kv => !(fixedKeys.contains kv.1) && validKey kv.1)

/-- `_BackendBasedEntity.fixed_attributes` (keys assumed present). -/
def fixedAttributes (fixedKeys : List String) (d : PyDict) : List (String × Option PyVal) :=
  fixedKeys.map (fun k => (k, dget d k))

/-- `_BackendBasedEntity.remove`: flag the handle, remove in the backend
(on an invalid handle this raises after `_removed` was already set), and
for a permanent removal drop `_backend_entity` from the handle. -/
def entityRemove (d : PyDict) (permanently : Bool) : OpResult :=
  let d' := dset d "_removed" (.b true)
  match dget d' "_backend_entity" with
  | some (.ref e) =>
    if permanently then ⟨ddel d' "_backend_entity", [.removeOp e true], none⟩
    else ⟨d', [.removeOp e false], none⟩
  | some _ => ⟨d', [], some .typeError⟩
  | none => ⟨d', [], some .invalidHandle⟩

/-- `_BackendBasedEntity.restore`. -/
def entityRestore (d : PyDict) : OpResult :=
  let d' := dset d "_removed" (.b false)
  match dget d' "_backend_entity" with
  | some (.ref e) => ⟨d', [.restoreOp e], none⟩
  | some _ => ⟨d', [], some .typeError⟩
  | none => ⟨d', [], some .invalidHandle⟩

/-- `_BackendBasedEntity.is_removed`. -/
def entityIsRemoved (d : PyDict) : Bool :=
  dget d "_removed" == some (.b true)


/-- Fixed keys of `_Event`. -/
def eventFixedKeys : List String :=
  ["start", "stop", "author", "uuid", "tags", "products", "rating"]

/-- Fixed keys of `_Catalogue`. -/
def catalogueFixedKeys : List String :=
  ["name", "author", "uuid", "tags", "predicate"]

/-- The validation applied to `tags` / `products` values: every element must
be a string and no element may contain a comma (list values only are
modelled). -/
def checkStrList (v : PyVal) : Option PyErr :=
  match v with
  | .list l =>
    if l.any (fun x => match x with | .s _ => false | _ => true) then
      some (.valueError "a tag has to be a string")
    else if l.any (fun x => match x with | .s s => s.toList.contains ',' | _ => false) then
      some (.valueError "a string-list value shall not contain a comma")
    else none
  | _ => some .typeError

/-- Python truthiness, for `if not value` checks. -/
def pyFalsy (v : PyVal) : Bool :=
  match v with
  | .noneV => true
  | .b b => !b
  | .i n => n == 0
  | .s s => s.isEmpty
  | .dtv _ => false
  | .list l => l.isEmpty
  | .ref _ => false

/-- `_Event.__setattr__`: per-key validation (uuid format, `start <= stop`,
string-list constraints, rating range) happens before the generic store, so
a failed validation raises with the dictionary untouched and no backend
write issued. -/
def eventSetAttr (d : PyDict) (k : String) (v : PyVal) : OpResult :=
  if k = "uuid" then
    match v with
    | .s u =>
      if pyUuidOk u then baseSetAttr eventFixedKeys d k v
      else ⟨d, [], some (.valueError "badly formed hexadecimal UUID string")⟩
    | _ => ⟨d, [], some .typeError⟩
  else if k = "start" && dhas d "stop" then
    match v, dget d "stop" with
    | .dtv t, some (.dtv t') =>
      if t > t' then ⟨d, [], some (.valueError "start date has to be before stop date")⟩
      else baseSetAttr eventFixedKeys d k v
    | _, _ => ⟨d, [], some .typeError⟩
  else if k = "stop" && dhas d "start" then
    match v, dget d "start" with
    | .dtv t, some (.dtv t') =>
      if t < t' then ⟨d, [], some (.valueError "stop date has to be after start date")⟩
      else baseSetAttr eventFixedKeys d k v
    | _, _ => ⟨d, [], some .typeError⟩
  else if k = "tags" || k = "products" then
    match checkStrList v with
    | some e => ⟨d, [], some e⟩
    | none => baseSetAttr eventFixedKeys d k v
  else if k = "rating" then
    match v with
    | .noneV => baseSetAttr eventFixedKeys d k v
    | .i n =>
      if n < 1 || 10 < n then ⟨d, [], some (.valueError "rating has to be between 1 and 10")⟩
      else baseSetAttr eventFixedKeys d k v
    | .b bv =>
      if bv then baseSetAttr eventFixedKeys d k v
      else ⟨d, [], some (.valueError "rating has to be between 1 and 10")⟩
    | _ => ⟨d, [], some (.valueError "rating has to be an integer value")⟩
  else baseSetAttr eventFixedKeys d k v

/-- `_Catalogue.__setattr__`: uuid format check, non-empty name, string-list
tags. -/
def catalogueSetAttr (d : PyDict) (k : String) (v : PyVal) : OpResult :=
  if k = "uuid" then
    match v with
    | .s u =>
      if pyUuidOk u then baseSetAttr catalogueFixedKeys d k v
      else ⟨d, [], some (.valueError "badly formed hexadecimal UUID string")⟩
    | _ => ⟨d, [], some .typeError⟩
  else if k = "name" then
    if pyFalsy v then ⟨d, [], some (.valueError "Catalogue name cannot be emtpy.")⟩
    else baseSetAttr catalogueFixedKeys d k v
  else if k = "tags" then
    match checkStrList v with
    | some e => ⟨d, [], some e⟩
    | none => baseSetAttr catalogueFixedKeys d k v
  else baseSetAttr catalogueFixedKeys d k v

/-- A constructor step: apply a `__setattr__`, propagating the exception.
During construction the backend is never touched (`_in_ctor` is set). -/
def setStep (setAttr : PyDict → String → PyVal → OpResult) (d : PyDict)
    (k : String) (v : PyVal) : Except PyErr PyDict :=
  match setAttr d k v with
  | ⟨d', _, none⟩ => .ok d'
  | ⟨_, _, some e⟩ => .error e

/-- `_Event.__init__` (with `_insert=True`): fields are assigned in source
order through `__setattr__`; a missing or empty uuid argument is replaced by
a freshly generated one (`str(uuid4())`, passed in as `freshUuid`); kwargs
names are validated and then merged into the instance dictionary directly;
finally the backend entity handle (`ref`) is attached and `_in_ctor`
cleared. -/
def mkEvent (start stop : Int) (author : String) (uuid : Option String)
    (tags products : List PyLit) (rating : Option Int) (kwargs : PyDict)
    (freshUuid : String) (ref : Nat) : Except PyErr (PyDict × List WriteOp) := do
  let d : PyDict := [("_in_ctor", .b true), ("_removed", .b false)]
  let d ← setStep eventSetAttr d "start" (.dtv start)
  let d ← setStep eventSetAttr d "stop" (.dtv stop)
  let d ← setStep eventSetAttr d "author" (.s author)
  let d ← setStep eventSetAttr d "tags" (.list tags)
  let d ← setStep eventSetAttr d "products" (.list products)
  let d ← setStep eventSetAttr d "rating" (match rating with | some r => .i r | none => .noneV)
  let u := match uuid with | some u => if u.isEmpty then freshUuid else u | none => freshUuid
  let d ← setStep eventSetAttr d "uuid" (.s u)
  if !(verifyAttributeNames kwargs) then
    .error (.valueError "Invalid key-name for event-meta-data in kwargs")
  else
    let d := kwargs.foldl (fun d kv => dset d kv.1 kv.2) d
    let d := dset d "_backend_entity" (.ref ref)
    let d := dset d "_in_ctor" (.b false)
    .ok (d, [.addEvent ref])

/-- `_Catalogue.__init__` (with `_insert=True`): `name`, `author`, `uuid`,
`tags`, `predicate` assigned in source order through `__setattr__`, kwargs
validated and merged, backend handle attached. -/
def mkCatalogue (name author : String) (uuid : Option String)
    (tags : List PyLit) (predicate : PyVal) (kwargs : PyDict)
    (freshUuid : String) (ref : Nat) : Except PyErr (PyDict × List WriteOp) := do
  let d : PyDict := [("_in_ctor", .b true), ("_removed", .b false)]
  let d ← setStep catalogueSetAttr d "name" (.s name)
  let d ← setStep catalogueSetAttr d "author" (.s author)
  let u := match uuid with | some u => if u.isEmpty then freshUuid else u | none => freshUuid
  let d ← setStep catalogueSetAttr d "uuid" (.s u)
  let d ← setStep catalogueSetAttr d "tags" (.list tags)
  let d ← setStep catalogueSetAttr d "predicate" predicate
  if !(verifyAttributeNames kwargs) then
    .error (.valueError "Invalid key-name for event-meta-data in kwargs")
  else
    let d := kwargs.foldl (fun d kv => dset d kv.1 kv.2) d
    let d := dset d "_backend_entity" (.ref ref)
    let d := dset d "_in_ctor" (.b false)
    .ok (d, [.addCatalogue ref])

/-! ### Dictionary lemmas -/

theorem dget_dset_self (d : PyDict) (k : String) (v : PyVal) :
    dget (dset d k v) k = some v := by
  induction d with
  | nil => simp [dget, dset]
  | cons kv rest ih =>
    by_cases h : kv.1 = k
    · simp [dset, h, dget]
    · simp [dset, h, dget, ih]

theorem dget_dset_of_ne (d : PyDict) (k k' : String) (v : PyVal) (h : k' ≠ k) :
    dget (dset d k v) k' = dget d k' := by
  have hne : k ≠ k' := fun hh => h hh.symm
  induction d with
  | nil => simp [dget, dset, hne]
  | cons kv rest ih =>
    by_cases hk : kv.1 = k
    · simp [dset, hk, dget, hne]
    · simp only [dset, hk, if_false, dget]
      by_cases hk' : kv.1 = k' <;> simp [hk', ih]

theorem dget_foldl_dset (kwargs : PyDict) (d : PyDict) (k : String)
    (h : ∀ kv ∈ kwargs, kv.1 ≠ k) :
    dget (kwargs.foldl (fun d kv => dset d kv.1 kv.2) d) k = dget d k := by
  induction kwargs generalizing d with
  | nil => rfl
  | cons kv rest ih =>
    have h1 : kv.1 ≠ k := h kv (List.mem_cons_self kv rest)
    have h2 : ∀ kv' ∈ rest, kv'.1 ≠ k := fun kv' hm => h kv' (List.mem_cons_of_mem kv hm)
    simp only [List.foldl_cons]
    rw [ih (dset d kv.1 kv.2) h2, dget_dset_of_ne _ _ _ _ (fun hh => h1 hh.symm)]

theorem baseSetAttr_d (fixedKeys : List String) (d : PyDict) (k : String) (v : PyVal) :
    (baseSetAttr fixedKeys d k v).d = dset d k v := by
  unfold baseSetAttr
  dsimp only
  split
  · split
    · split <;> rfl
    · split
      · split <;> rfl
      · rfl
  · rfl

/-- The `start <= stop` invariant of events, read off the instance dictionary. -/
def startStopOk (d : PyDict) : Prop :=
  ∃ a b : Int, dget d "start" = some (.dtv a) ∧ dget d "stop" = some (.dtv b) ∧ a ≤ b

theorem eventSetAttr_start_eq (d : PyDict) (t t' : Int)
    (hb : dget d "stop" = some (.dtv t')) :
    eventSetAttr d "start" (.dtv t) =
      if t > t' then ⟨d, [], some (.valueError "start date has to be before stop date")⟩
      else baseSetAttr eventFixedKeys d "start" (.dtv t) := by
  have hdh : dhas d "stop" = true := by simp [dhas, hb]
  unfold eventSetAttr
  rw [if_neg (by decide : ¬("start" = "uuid"))]
  simp only [hdh, hb]
  norm_num

theorem eventSetAttr_stop_eq (d : PyDict) (t t' : Int)
    (ha : dget d "start" = some (.dtv t')) :
    eventSetAttr d "stop" (.dtv t) =
      if t < t' then ⟨d, [], some (.valueError "stop date has to be after start date")⟩
      else baseSetAttr eventFixedKeys d "stop" (.dtv t) := by
  have hdh : dhas d "start" = true := by simp [dhas, ha]
  unfold eventSetAttr
  rw [if_neg (by decide : ¬("stop" = "uuid"))]
  simp only [hdh, ha]
  norm_num
  intro hcontr
  exact absurd hcontr (by decide)

theorem eventSetAttr_d_cases (d : PyDict) (k : String) (v : PyVal) :
    (eventSetAttr d k v).d = d ∨ (eventSetAttr d k v).d = dset d k v := by
  unfold eventSetAttr
  repeat' split
  all_goals simp [baseSetAttr_d]

theorem startStopOk_dset_other (d : PyDict) (k : String) (v : PyVal)
    (h : startStopOk d) (h1 : k ≠ "start") (h2 : k ≠ "stop") :
    startStopOk (dset d k v) := by
  obtain ⟨a, b, ha, hb, hab⟩ := h
  exact ⟨a, b, by rwa [dget_dset_of_ne _ _ _ _ (fun hh => h1 hh.symm)],
    by rwa [dget_dset_of_ne _ _ _ _ (fun hh => h2 hh.symm)], hab⟩

theorem exceptBind_eq_ok {ε α β : Type} {x : Except ε α} {f : α → Except ε β} {b : β} :
    (x >>= f) = .ok b ↔ ∃ a, x = .ok a ∧ f a = .ok b := by
  cases x <;> simp [Bind.bind, Except.bind]

theorem setStep_ok_d (f : PyDict → String → PyVal → OpResult) (d d' : PyDict)
    (k : String) (v : PyVal) (hstep : setStep f d k v = .ok d') :
    d' = (f d k v).d := by
  unfold setStep at hstep
  split at hstep
  · next heq =>
    rw [Except.ok.injEq] at hstep
    rw [← hstep, heq]
  · exact absurd hstep (by simp)

theorem setStep_ok_dget (d d' : PyDict) (k k' : String) (v : PyVal)
    (hstep : setStep eventSetAttr d k v = .ok d') (hne : k' ≠ k) :
    dget d' k' = dget d k' := by
  have hd : d' = (eventSetAttr d k v).d := setStep_ok_d _ _ _ _ _ hstep
  rcases eventSetAttr_d_cases d k v with hc | hc <;> rw [hd, hc]
  exact dget_dset_of_ne _ _ _ _ hne

theorem eventSetAttr_start_typeErr (d : PyDict) (v : PyVal) (hb : dhas d "stop" = true)
    (hv : ∀ t : Int, v ≠ .dtv t) : eventSetAttr d "start" v = ⟨d, [], some .typeError⟩ := by
  unfold eventSetAttr
  rw [if_neg (by decide : ¬("start" = "uuid")), if_pos (by simp [hb])]
  cases v
  case dtv t => exact absurd rfl (hv t)
  all_goals rfl

theorem eventSetAttr_stop_typeErr (d : PyDict) (v : PyVal) (ha : dhas d "start" = true)
    (hv : ∀ t : Int, v ≠ .dtv t) : eventSetAttr d "stop" v = ⟨d, [], some .typeError⟩ := by
  unfold eventSetAttr
  rw [if_neg (by decide : ¬("stop" = "uuid")),
    if_neg (by simp : ¬((("stop" = "start") && dhas d "stop") = true)),
    if_pos (by simp [ha])]
  cases v
  case dtv t => exact absurd rfl (hv t)
  all_goals rfl

theorem mkEvent_ok_start_stop (start stop : Int) (author : String) (uuid : Option String)
    (tags products : List PyLit) (rating : Option Int) (kwargs : PyDict)
    (freshUuid : String) (ref : Nat) (d : PyDict) (w : List WriteOp)
    (hkeys : (kwargs.map Prod.fst).all (fun k => !(eventFixedKeys.contains k)) = true)
    (h : mkEvent start stop author uuid tags products rating kwargs freshUuid ref = .ok (d, w)) :
    dget d "start" = some (.dtv start) ∧ dget d "stop" = some (.dtv stop) ∧ start ≤ stop := by
  have hks : ∀ kv ∈ kwargs, kv.1 ≠ "start" := by
    intro kv hm hcontra
    have h1 := List.all_eq_true.mp hkeys kv.1 (List.mem_map_of_mem Prod.fst hm)
    rw [hcontra] at h1
    simp [eventFixedKeys] at h1
  have hkt : ∀ kv ∈ kwargs, kv.1 ≠ "stop" := by
    intro kv hm hcontra
    have h1 := List.all_eq_true.mp hkeys kv.1 (List.mem_map_of_mem Prod.fst hm)
    rw [hcontra] at h1
    simp [eventFixedKeys] at h1
  unfold mkEvent at h
  obtain ⟨d1, h1, h⟩ := exceptBind_eq_ok.mp h
  simp [setStep, eventSetAttr, baseSetAttr, inCtor, dget, dset, dhas] at h1
  subst h1
  obtain ⟨d2, h2, h⟩ := exceptBind_eq_ok.mp h
  by_cases hss : stop < start
  · simp [setStep, eventSetAttr, baseSetAttr, inCtor, dget, dset, dhas, hss] at h2
  simp [setStep, eventSetAttr, baseSetAttr, inCtor, dget, dset, dhas, hss] at h2
  subst h2
  obtain ⟨d3, h3, h⟩ := exceptBind_eq_ok.mp h
  have e3a := setStep_ok_dget _ _ _ "start" _ h3 (by decide)
  have e3b := setStep_ok_dget _ _ _ "stop" _ h3 (by decide)
  obtain ⟨d4, h4, h⟩ := exceptBind_eq_ok.mp h
  have e4a := setStep_ok_dget _ _ _ "start" _ h4 (by decide)
  have e4b := setStep_ok_dget _ _ _ "stop" _ h4 (by decide)
  obtain ⟨d5, h5, h⟩ := exceptBind_eq_ok.mp h
  have e5a := setStep_ok_dget _ _ _ "start" _ h5 (by decide)
  have e5b := setStep_ok_dget _ _ _ "stop" _ h5 (by decide)
  obtain ⟨d6, h6, h⟩ := exceptBind_eq_ok.mp h
  have e6a := setStep_ok_dget _ _ _ "start" _ h6 (by decide)
  have e6b := setStep_ok_dget _ _ _ "stop" _ h6 (by decide)
  obtain ⟨d7, h7, h⟩ := exceptBind_eq_ok.mp h
  have e7a := setStep_ok_dget _ _ _ "start" _ h7 (by decide)
  have e7b := setStep_ok_dget _ _ _ "stop" _ h7 (by decide)
  split at h
  · exact absurd h (by simp)
  · rw [Except.ok.injEq, Prod.mk.injEq] at h
    obtain ⟨hd, -⟩ := h
    subst hd
    rw [dget_dset_of_ne _ _ _ _ (by decide), dget_dset_of_ne _ _ _ _ (by decide),
      dget_foldl_dset kwargs _ _ hks, dget_dset_of_ne _ _ _ _ (by decide),
      dget_dset_of_ne _ _ _ _ (by decide), dget_foldl_dset kwargs _ _ hkt]
    rw [e7a, e6a, e5a, e4a, e3a, e7b, e6b, e5b, e4b, e3b]
    refine ⟨by simp [dget], by simp [dget], by omega⟩

theorem eventSetAttr_preserves_startStop (d : PyDict) (k : String) (v : PyVal)
    (h : startStopOk d) : startStopOk ((eventSetAttr d k v).d) := by
  obtain ⟨a, b, ha, hb, hab⟩ := h
  by_cases hk1 : k = "start"
  · subst hk1
    cases v with
    | dtv t =>
      rw [eventSetAttr_start_eq d t b hb]
      by_cases hcmp : t > b
      · rw [if_pos hcmp]
        exact ⟨a, b, ha, hb, hab⟩
      · rw [if_neg hcmp, baseSetAttr_d]
        exact ⟨t, b, by rw [dget_dset_self],
          by rwa [dget_dset_of_ne _ _ _ _ (by decide)], by omega⟩
    | noneV =>
      rw [eventSetAttr_start_typeErr d _ (by simp [dhas, hb]) (by intro t h; cases h)]
      exact ⟨a, b, ha, hb, hab⟩
    | b bv =>
      rw [eventSetAttr_start_typeErr d _ (by simp [dhas, hb]) (by intro t h; cases h)]
      exact ⟨a, b, ha, hb, hab⟩
    | i n =>
      rw [eventSetAttr_start_typeErr d _ (by simp [dhas, hb]) (by intro t h; cases h)]
      exact ⟨a, b, ha, hb, hab⟩
    | s str =>
      rw [eventSetAttr_start_typeErr d _ (by simp [dhas, hb]) (by intro t h; cases h)]
      exact ⟨a, b, ha, hb, hab⟩
    | list l =>
      rw [eventSetAttr_start_typeErr d _ (by simp [dhas, hb]) (by intro t h; cases h)]
      exact ⟨a, b, ha, hb, hab⟩
    | ref r =>
      rw [eventSetAttr_start_typeErr d _ (by simp [dhas, hb]) (by intro t h; cases h)]
      exact ⟨a, b, ha, hb, hab⟩
  by_cases hk2 : k = "stop"
  · subst hk2
    cases v with
    | dtv t =>
      rw [eventSetAttr_stop_eq d t a ha]
      by_cases hcmp : t < a
      · rw [if_pos hcmp]
        exact ⟨a, b, ha, hb, hab⟩
      · rw [if_neg hcmp, baseSetAttr_d]
        exact ⟨a, t, by rwa [dget_dset_of_ne _ _ _ _ (by decide)],
          by rw [dget_dset_self], by omega⟩
    | noneV =>
      rw [eventSetAttr_stop_typeErr d _ (by simp [dhas, ha]) (by intro t h; cases h)]
      exact ⟨a, b, ha, hb, hab⟩
    | b bv =>
      rw [eventSetAttr_stop_typeErr d _ (by simp [dhas, ha]) (by intro t h; cases h)]
      exact ⟨a, b, ha, hb, hab⟩
    | i n =>
      rw [eventSetAttr_stop_typeErr d _ (by simp [dhas, ha]) (by intro t h; cases h)]
      exact ⟨a, b, ha, hb, hab⟩
    | s str =>
      rw [eventSetAttr_stop_typeErr d _ (by simp [dhas, ha]) (by intro t h; cases h)]
      exact ⟨a, b, ha, hb, hab⟩
    | list l =>
      rw [eventSetAttr_stop_typeErr d _ (by simp [dhas, ha]) (by intro t h; cases h)]
      exact ⟨a, b, ha, hb, hab⟩
    | ref r =>
      rw [eventSetAttr_stop_typeErr d _ (by simp [dhas, ha]) (by intro t h; cases h)]
      exact ⟨a, b, ha, hb, hab⟩
  rcases eventSetAttr_d_cases d k v with hc | hc <;> rw [hc]
  · exact ⟨a, b, ha, hb, hab⟩
  · exact startStopOk_dset_other d k v ⟨a, b, ha, hb, hab⟩
      (fun hh => hk1 hh) (fun hh => hk2 hh)

/-- A valid RFC-4122 version-4 uuid string used in concrete examples. -/
def uuidA : String := "b2e9d3f6-7a2e-4a6a-9f5a-1c2d3e4f5a6b"

/-- A second valid version-4 uuid string. -/
def uuidB : String := "5b1a9c2e-3d4f-4b6a-8c7d-9e0f1a2b3c4d"

/-- The nil uuid: a well-formed uuid string whose version nibble is `0`,
not `4`. -/
def uuidNil : String := "00000000-0000-0000-0000-000000000000"

/-- The instance dictionary produced by
`mkEvent 0 10 "Patrick" (some uuidA) [] [] none [] uuidA 7`. -/
def sampleEvent : PyDict :=
  [("_in_ctor", .b false), ("_removed", .b false), ("start", .dtv 0),
   ("stop", .dtv 10), ("author", .s "Patrick"), ("tags", .list []),
   ("products", .list []), ("rating", .noneV), ("uuid", .s uuidA),
   ("_backend_entity", .ref 7)]

/-- `sampleEvent` with one variable attribute `field_int`, as produced by
`mkEvent 0 10 "Patrick" (some uuidA) [] [] none [("field_int", .i 100)] uuidA 7`. -/
def sampleEventAttr : PyDict :=
  [("_in_ctor", .b false), ("_removed", .b false), ("start", .dtv 0),
   ("stop", .dtv 10), ("author", .s "Patrick"), ("tags", .list []),
   ("products", .list []), ("rating", .noneV), ("uuid", .s uuidA),
   ("field_int", .i 100), ("_backend_entity", .ref 7)]

/-- C3: for every event, `start <= stop` holds after construction and after
every field mutation; assigning a `start` greater than the current `stop`
(or a `stop` smaller than the current `start`) raises a ValidationError
(`ValueError`) and the operation leaves the instance dictionary unchanged
and issues no backend write. -/
theorem C3_event_start_stop_invariant :
    (∀ (start stop : Int) (author : String) (uuid : Option String)
        (tags products : List PyLit) (rating : Option Int) (kwargs : PyDict)
        (freshUuid : String) (ref : Nat) (d : PyDict) (w : List WriteOp),
        (kwargs.map Prod.fst).all (fun k => !(eventFixedKeys.contains k)) = true →
        mkEvent start stop author uuid tags products rating kwargs freshUuid ref = .ok (d, w) →
        dget d "start" = some (.dtv start) ∧ dget d "stop" = some (.dtv stop) ∧ start ≤ stop)
    ∧ (∀ (d : PyDict) (k : String) (v : PyVal),
        startStopOk d → startStopOk ((eventSetAttr d k v).d))
    ∧ (∀ (d : PyDict) (t t' : Int), dget d "stop" = some (.dtv t') → t > t' →
        eventSetAttr d "start" (.dtv t) =
          ⟨d, [], some (.valueError "start date has to be before stop date")⟩)
    ∧ (∀ (d : PyDict) (t t' : Int), dget d "start" = some (.dtv t') → t < t' →
        eventSetAttr d "stop" (.dtv t) =
          ⟨d, [], some (.valueError "stop date has to be after start date")⟩) := by
  refine ⟨mkEvent_ok_start_stop, eventSetAttr_preserves_startStop, ?_, ?_⟩
  · intro d t t' hb hgt
    rw [eventSetAttr_start_eq d t t' hb, if_pos hgt]
  · intro d t t' ha hlt
    rw [eventSetAttr_stop_eq d t t' ha, if_pos hlt]

/-- Witness for C3 at concrete inputs: a freshly constructed event with
`start = 0`, `stop = 10` satisfies the invariant, and assigning
`start := 20` fails with the exact ValueError, leaving the dictionary
unchanged and writing nothing. -/
theorem C3_event_start_stop_invariant_witness :
    (dget sampleEvent "start" = some (.dtv 0) ∧
      dget sampleEvent "stop" = some (.dtv 10) ∧ (0 : Int) ≤ 10)
    ∧ startStopOk ((eventSetAttr sampleEvent "author" (.s "X")).d)
    ∧ eventSetAttr sampleEvent "start" (.dtv 20) =
        ⟨sampleEvent, [], some (.valueError "start date has to be before stop date")⟩
    ∧ eventSetAttr sampleEvent "stop" (.dtv (-5)) =
        ⟨sampleEvent, [], some (.valueError "stop date has to be after start date")⟩ :=
  ⟨C3_event_start_stop_invariant.1 0 10 "Patrick" (some uuidA) [] [] none []
      uuidA 7 sampleEvent [.addEvent 7] (by decide) (by rfl),
   C3_event_start_stop_invariant.2.1 sampleEvent "author" (.s "X")
      ⟨0, 10, by decide, by decide, by decide⟩,
   C3_event_start_stop_invariant.2.2.1 sampleEvent 20 10 (by decide) (by decide),
   C3_event_start_stop_invariant.2.2.2 sampleEvent (-5) 0 (by decide) (by decide)⟩

deriving instance DecidableEq for Except

theorem dget_eq_none_iff (d : PyDict) (k : String) :
    dget d k = none ↔ k ∉ d.map Prod.fst := by
  induction d with
  | nil => simp [dget]
  | cons kv rest ih =>
    by_cases hk : kv.1 = k
    · simp [dget, hk]
    · simp only [dget, hk, if_false, List.map_cons, List.mem_cons]
      rw [ih]
      constructor
      · rintro hh (h2 | h2)
        · exact hk h2.symm
        · exact hh h2
      · exact fun hh hm => hh (Or.inr hm)

theorem mem_keys_dset (d : PyDict) (k : String) (v : PyVal) (a : String) :
    a ∈ (dset d k v).map Prod.fst ↔ a = k ∨ a ∈ d.map Prod.fst := by
  induction d with
  | nil => simp [dset]
  | cons kv rest ih =>
    by_cases hk : kv.1 = k
    · simp only [dset, hk, if_true, List.map_cons, List.mem_cons, hk]
      tauto
    · simp only [dset, hk, if_false, List.map_cons, List.mem_cons]
      rw [ih]
      tauto

theorem keys_nodup_dset (d : PyDict) (k : String) (v : PyVal)
    (h : (d.map Prod.fst).Nodup) : ((dset d k v).map Prod.fst).Nodup := by
  induction d with
  | nil => simp [dset]
  | cons kv rest ih =>
    simp only [List.map_cons, List.nodup_cons] at h
    by_cases hk : kv.1 = k
    · simp only [dset, hk, if_true, List.map_cons, List.nodup_cons]
      exact ⟨by rw [← hk]; exact h.1, h.2⟩
    · simp only [dset, hk, if_false, List.map_cons, List.nodup_cons]
      refine ⟨?_, ih h.2⟩
      rw [mem_keys_dset]
      rintro (hh | hh)
      · exact hk hh
      · exact h.1 hh

theorem dget_ddel_of_ne (d : PyDict) (k k' : String) (h : k' ≠ k) :
    dget (ddel d k) k' = dget d k' := by
  induction d with
  | nil => rfl
  | cons kv rest ih =>
    by_cases hk : kv.1 = k
    · simp only [ddel, hk, if_true, dget]
      rw [if_neg (fun hh => h hh.symm)]
    · simp only [ddel, hk, if_false, dget]
      by_cases hk' : kv.1 = k' <;> simp [hk', ih]

theorem dget_ddel_self (d : PyDict) (k : String) (h : (d.map Prod.fst).Nodup) :
    dget (ddel d k) k = none := by
  induction d with
  | nil => rfl
  | cons kv rest ih =>
    simp only [List.map_cons, List.nodup_cons] at h
    by_cases hk : kv.1 = k
    · simp only [ddel, hk, if_true]
      rw [dget_eq_none_iff]
      rw [← hk]
      exact h.1
    · simp only [ddel, hk, if_false, dget]
      exact ih h.2

theorem validKey_ne_reserved (k : String) (h : validKey k = true) :
    k ≠ "_in_ctor" ∧ k ≠ "_backend_entity" ∧ k ≠ "_removed" := by
  refine ⟨?_, ?_, ?_⟩ <;> (intro hh; rw [hh] at h; exact absurd h (by decide))

/-- C6, counterexample: after `remove(permanently=True)` the fields of the
entity are still present in the instance dictionary and reading one
succeeds with its old value — it does not raise an InvalidHandleError.
Only operations that need `_backend_entity` fail. -/
theorem C6_counterexample_field_read_after_permanent_delete :
    (entityRemove sampleEvent true).err = none ∧
      entityGetAttr (entityRemove sampleEvent true).d "start" = .ok (.dtv 0) := by
  constructor <;> rfl

theorem entityRemove_err_no_backend (d0 : PyDict) (b : Bool)
    (h : dget (dset d0 "_removed" (.b true)) "_backend_entity" = none) :
    (entityRemove d0 b).err = some .invalidHandle := by
  unfold entityRemove
  dsimp only
  rw [h]

/-- C6 (amended): after a successful `remove(permanently=True)` the handle
has lost `_backend_entity`, and every operation that reaches the backend —
write-through assignment of a fixed field or of a pattern-matching
attribute, deletion of a variable attribute, `restore`, and any further
`remove` — raises the invalid-handle error; a plain field read, however,
still returns the value kept in the instance dictionary. -/
theorem C6_permanent_delete_invalidates_backend_ops
    (fixedKeys : List String) (d : PyDict) (e : Nat)
    (hfk : fixedKeys.all (fun k => validKey k) = true)
    (hbe : dget d "_backend_entity" = some (.ref e))
    (hnd : (d.map Prod.fst).Nodup)
    (hic : dget d "_in_ctor" = some (.b false)) :
    ((entityRemove d true).err = none ∧
      dget (entityRemove d true).d "_backend_entity" = none)
    ∧ (∀ k v, fixedKeys.contains k = true ∨ validKey k = true →
        (baseSetAttr fixedKeys (entityRemove d true).d k v).err = some .invalidHandle)
    ∧ (∀ k, validKey k = true → fixedKeys.contains k = false →
        dhas (entityRemove d true).d k = true →
        (entityDelAttr fixedKeys (entityRemove d true).d k).err = some .invalidHandle)
    ∧ (entityRestore (entityRemove d true).d).err = some .invalidHandle
    ∧ (∀ b, (entityRemove (entityRemove d true).d b).err = some .invalidHandle)
    ∧ (∀ name v, dget (entityRemove d true).d name = some v →
        entityGetAttr (entityRemove d true).d name = .ok v) := by
  have hvalid : ∀ k, fixedKeys.contains k = true ∨ validKey k = true → validKey k = true := by
    intro k hk
    rcases hk with hk | hk
    · exact List.all_eq_true.mp hfk k (by simpa using hk)
    · exact hk
  have hnd' : ((dset d "_removed" (.b true)).map Prod.fst).Nodup := keys_nodup_dset d _ _ hnd
  have hbe' : dget (dset d "_removed" (.b true)) "_backend_entity" = some (.ref e) := by
    rw [dget_dset_of_ne _ _ _ _ (by decide)]
    exact hbe
  have hrd : (entityRemove d true).d = ddel (dset d "_removed" (.b true)) "_backend_entity" := by
    unfold entityRemove
    dsimp only
    rw [hbe']
    rfl
  have hrerr : (entityRemove d true).err = none := by
    unfold entityRemove
    dsimp only
    rw [hbe']
    rfl
  have hbe0 : dget (entityRemove d true).d "_backend_entity" = none := by
    rw [hrd]
    exact dget_ddel_self _ _ hnd'
  have hic0 : dget (entityRemove d true).d "_in_ctor" = some (.b false) := by
    rw [hrd, dget_ddel_of_ne _ _ _ (by decide), dget_dset_of_ne _ _ _ _ (by decide)]
    exact hic
  refine ⟨⟨hrerr, hbe0⟩, ?_, ?_, ?_, ?_, ?_⟩
  · intro k v hk
    have hv := hvalid k hk
    obtain ⟨hk1, hk2, -⟩ := validKey_ne_reserved k hv
    have hbe1 : dget (dset (entityRemove d true).d k v) "_backend_entity" = none := by
      rw [dget_dset_of_ne _ _ _ _ (fun hh => hk2 hh.symm)]
      exact hbe0
    have hic1 : inCtor (dset (entityRemove d true).d k v) = false := by
      unfold inCtor
      rw [dget_dset_of_ne _ _ _ _ (fun hh => hk1 hh.symm), hic0]
      decide
    unfold baseSetAttr
    dsimp only
    rw [if_pos (by simp [hic1, hk1])]
    rcases hk with hk | hk
    · rw [if_pos hk, hbe1]
    · by_cases hf : fixedKeys.contains k = true
      · rw [if_pos hf, hbe1]
      · rw [if_neg (by simp at hf ⊢; exact hf), if_pos hk, hbe1]
  · intro k hv hnf hhk
    obtain ⟨-, hk2, -⟩ := validKey_ne_reserved k hv
    have hbe1 : dget (ddel (entityRemove d true).d k) "_backend_entity" = none := by
      rw [dget_ddel_of_ne _ _ _ (fun hh => hk2 hh.symm)]
      exact hbe0
    unfold entityDelAttr
    dsimp only
    rw [if_neg (by simp [hhk]), if_neg (by rw [hnf]; decide), if_pos hv, hbe1]
  · have : dget (dset (entityRemove d true).d "_removed" (.b false)) "_backend_entity" = none := by
      rw [dget_dset_of_ne _ _ _ _ (by decide)]
      exact hbe0
    unfold entityRestore
    dsimp only
    rw [this]
  · intro b
    have hb2 : dget (dset (entityRemove d true).d "_removed" (.b true)) "_backend_entity" = none := by
      rw [dget_dset_of_ne _ _ _ _ (by decide)]
      exact hbe0
    exact entityRemove_err_no_backend (entityRemove d true).d b hb2
  · intro name v hv
    unfold entityGetAttr
    rw [hv]

/-- Witness for the amended C6 at a concrete event: every backend-reaching
operation on the hard-deleted handle fails with the invalid-handle error,
while reading `start` still yields its old value. -/
theorem C6_permanent_delete_invalidates_backend_ops_witness :
    ((entityRemove sampleEventAttr true).err = none ∧
      dget (entityRemove sampleEventAttr true).d "_backend_entity" = none)
    ∧ (baseSetAttr eventFixedKeys (entityRemove sampleEventAttr true).d "author"
        (.s "X")).err = some .invalidHandle
    ∧ (entityDelAttr eventFixedKeys (entityRemove sampleEventAttr true).d
        "field_int").err = some .invalidHandle
    ∧ (entityRestore (entityRemove sampleEventAttr true).d).err = some .invalidHandle
    ∧ (entityRemove (entityRemove sampleEventAttr true).d false).err = some .invalidHandle
    ∧ entityGetAttr (entityRemove sampleEventAttr true).d "start" = .ok (.dtv 0) := by
  have T := C6_permanent_delete_invalidates_backend_ops eventFixedKeys sampleEventAttr 7
    (by decide) (by decide) (by decide) (by decide)
  exact ⟨T.1, T.2.1 "author" (.s "X") (.inl (by decide)),
    T.2.2.1 "field_int" (by decide) (by decide) (by decide),
    T.2.2.2.1, T.2.2.2.2.1 false, T.2.2.2.2.2 "start" (.dtv 0) (by decide)⟩

theorem mem_insertSorted (a x : String) (l : List String) :
    a ∈ insertSorted x l ↔ a = x ∨ a ∈ l := by
  induction l with
  | nil => simp [insertSorted]
  | cons y ys ih =>
    unfold insertSorted
    by_cases h : strLe x y = true
    · simp [h]
    · simp [h, ih]
      tauto

theorem mem_sortKeys (a : String) (l : List String) : a ∈ sortKeys l ↔ a ∈ l := by
  induction l with
  | nil => simp [sortKeys]
  | cons x xs ih =>
    unfold sortKeys at ih ⊢
    simp only [List.foldr_cons, mem_insertSorted, List.mem_cons, ih]

theorem entityEq_dget_of_valid (d1 d2 : PyDict) (k : String)
    (hv : validKey k = true) (he : entityEq d1 d2 = true) :
    dget d1 k = dget d2 k := by
  unfold entityEq at he
  rw [Bool.and_eq_true] at he
  obtain ⟨hkeys, hall⟩ := he
  rw [beq_iff_eq] at hkeys
  by_cases hm : k ∈ validKeys d1
  · have := List.all_eq_true.mp hall k hm
    rwa [beq_iff_eq] at this
  · have h1 : dget d1 k = none := by
      rw [dget_eq_none_iff]
      intro hmem
      exact hm (by unfold validKeys; rw [List.mem_filter]; exact ⟨hmem, hv⟩)
    have h2 : k ∉ validKeys d2 := by
      intro hm2
      have hx : k ∈ sortKeys (validKeys d2) := (mem_sortKeys _ _).mpr hm2
      rw [← hkeys] at hx
      exact hm ((mem_sortKeys _ _).mp hx)
    have h3 : dget d2 k = none := by
      rw [dget_eq_none_iff]
      intro hmem
      exact h2 (by unfold validKeys; rw [List.mem_filter]; exact ⟨hmem, hv⟩)
    rw [h1, h3]

theorem entityEq_of_agree (d1 d2 : PyDict)
    (hkeys : sortKeys (validKeys d1) = sortKeys (validKeys d2))
    (hall : ∀ k ∈ validKeys d1, dget d1 k = dget d2 k) :
    entityEq d1 d2 = true := by
  unfold entityEq
  rw [Bool.and_eq_true]
  refine ⟨by rw [beq_iff_eq]; exact hkeys, ?_⟩
  rw [List.all_eq_true]
  intro k hk
  rw [beq_iff_eq]
  exact hall k hk

/-- `sampleEvent` with a different (valid, version-4) uuid and otherwise
identical values. -/
def sampleEventB : PyDict :=
  [("_in_ctor", .b false), ("_removed", .b false), ("start", .dtv 0),
   ("stop", .dtv 10), ("author", .s "Patrick"), ("tags", .list []),
   ("products", .list []), ("rating", .noneV), ("uuid", .s uuidB),
   ("_backend_entity", .ref 8)]

/-- `sampleEvent` with the same bindings in a different insertion order. -/
def sampleEventReordered : PyDict :=
  [("_in_ctor", .b false), ("_removed", .b false), ("author", .s "Patrick"),
   ("start", .dtv 0), ("stop", .dtv 10), ("rating", .noneV),
   ("products", .list []), ("tags", .list []), ("uuid", .s uuidA),
   ("_backend_entity", .ref 7)]

/-- C7, counterexample: two events that agree on every variable attribute
(and indeed on every fixed field except the uuid) are reported unequal by
`__eq__` — so equality does not compare "only the variable-attribute set":
the uuid (a fixed field) takes part in the comparison. -/
theorem C7_counterexample_uuid_in_equality :
    variableAttributes eventFixedKeys sampleEvent =
        variableAttributes eventFixedKeys sampleEventB
    ∧ (∀ k ∈ eventFixedKeys, k ≠ "uuid" → dget sampleEvent k = dget sampleEventB k)
    ∧ dget sampleEvent "uuid" ≠ dget sampleEventB "uuid"
    ∧ entityEq sampleEvent sampleEventB = false := by decide

/-- C7 (amended): `__eq__` compares the full set of pattern-matching
instance attributes — fixed fields, the uuid included, together with the
variable attributes: two equal entities agree on every valid-named
attribute; conversely, agreement on the (identical) valid key set implies
equality; and in particular two entities with different uuid values are
unequal. -/
theorem C7_entity_equality_compares_fixed_and_variable :
    (∀ (d1 d2 : PyDict) (k : String), validKey k = true → entityEq d1 d2 = true →
        dget d1 k = dget d2 k)
    ∧ (∀ d1 d2 : PyDict, sortKeys (validKeys d1) = sortKeys (validKeys d2) →
        (∀ k ∈ validKeys d1, dget d1 k = dget d2 k) → entityEq d1 d2 = true)
    ∧ (∀ d1 d2 : PyDict, dget d1 "uuid" ≠ dget d2 "uuid" → entityEq d1 d2 = false) := by
  refine ⟨entityEq_dget_of_valid, entityEq_of_agree, ?_⟩
  intro d1 d2 hne
  by_contra hcontra
  rw [Bool.not_eq_false] at hcontra
  exact hne (entityEq_dget_of_valid d1 d2 "uuid" (by decide) hcontra)

/-- Witness for the amended C7 at concrete entities: equal entities agree on
`author`; agreement on the key set makes reordered dictionaries equal; and
the uuid-differing pair is unequal. -/
theorem C7_entity_equality_compares_fixed_and_variable_witness :
    dget sampleEvent "author" = dget sampleEventReordered "author"
    ∧ entityEq sampleEvent sampleEventReordered = true
    ∧ entityEq sampleEvent sampleEventB = false :=
  ⟨C7_entity_equality_compares_fixed_and_variable.1 sampleEvent sampleEventReordered
      "author" (by decide) (by decide),
    C7_entity_equality_compares_fixed_and_variable.2.1 sampleEvent sampleEventReordered
      (by decide) (by decide),
    C7_entity_equality_compares_fixed_and_variable.2.2 sampleEvent sampleEventB
      (by decide)⟩

/-- The instance dictionary produced by
`mkEvent 0 10 "Patrick" none [] [] none [] uuidB 9` (uuid omitted, so the
generated `freshUuid = uuidB` is used). -/
def sampleUuidEvent : PyDict :=
  [("_in_ctor", .b false), ("_removed", .b false), ("start", .dtv 0),
   ("stop", .dtv 10), ("author", .s "Patrick"), ("tags", .list []),
   ("products", .list []), ("rating", .noneV), ("uuid", .s uuidB),
   ("_backend_entity", .ref 9)]

/-- The instance dictionary produced by
`mkCatalogue "Cat A" "Patrick" (some uuidA) [] .noneV [] uuidA 11`. -/
def sampleCatalogue : PyDict :=
  [("_in_ctor", .b false), ("_removed", .b false), ("name", .s "Cat A"),
   ("author", .s "Patrick"), ("uuid", .s uuidA), ("tags", .list []),
   ("predicate", .noneV), ("_backend_entity", .ref 11)]

/-- C8: evaluation at the failing input.  Deleting the fixed field `author`
does raise the fixed-key `IndexError` with no backend write — but because
`super().__delattr__` runs before the check, the handle's instance
dictionary has already lost the field when the error is raised.  Deleting a
variable attribute succeeds and removes it from both the handle and the
backend. -/
theorem C8_delete_fixed_field_evaluation :
    (entityDelAttr eventFixedKeys sampleEvent "author").err = some .fixedKeyError
    ∧ (entityDelAttr eventFixedKeys sampleEvent "author").writes = []
    ∧ dget (entityDelAttr eventFixedKeys sampleEvent "author").d "author" = none
    ∧ (entityDelAttr eventFixedKeys sampleEventAttr "field_int").err = none
    ∧ dget (entityDelAttr eventFixedKeys sampleEventAttr "field_int").d "field_int" = none
    ∧ (entityDelAttr eventFixedKeys sampleEventAttr "field_int").writes =
        [.deleteAttribute 7 "field_int"] := by decide

/-- C9, counterexample: reassigning the uuid of an existing event to the
nil uuid — a well-formed uuid string whose version nibble is `0`, not `4` —
succeeds and changes the stored uuid value: the format check does not
verify version-4 form, and the uuid is not immutable. -/
theorem C9_counterexample_uuid_reassignment :
    (eventSetAttr sampleEvent "uuid" (.s uuidNil)).err = none
    ∧ dget (eventSetAttr sampleEvent "uuid" (.s uuidNil)).d "uuid" = some (.s uuidNil)
    ∧ uuidNil ≠ uuidA
    ∧ uuidNil.toList.getD 14 'x' = '0' := by decide

theorem eventSetAttr_uuid_eq (d : PyDict) (u : String) :
    eventSetAttr d "uuid" (.s u) =
      if pyUuidOk u then baseSetAttr eventFixedKeys d "uuid" (.s u)
      else ⟨d, [], some (.valueError "badly formed hexadecimal UUID string")⟩ := by
  unfold eventSetAttr
  rw [if_pos rfl]

theorem catalogueSetAttr_uuid_eq (d : PyDict) (u : String) :
    catalogueSetAttr d "uuid" (.s u) =
      if pyUuidOk u then baseSetAttr catalogueFixedKeys d "uuid" (.s u)
      else ⟨d, [], some (.valueError "badly formed hexadecimal UUID string")⟩ := by
  unfold catalogueSetAttr
  rw [if_pos rfl]

theorem mkEvent_uses_fresh_uuid (start stop : Int) (author : String)
    (tags products : List PyLit) (rating : Option Int) (kwargs : PyDict)
    (freshUuid : String) (ref : Nat) (d : PyDict) (w : List WriteOp)
    (hkeys : (kwargs.map Prod.fst).all (fun k => !(eventFixedKeys.contains k)) = true)
    (h : mkEvent start stop author none tags products rating kwargs freshUuid ref = .ok (d, w)) :
    dget d "uuid" = some (.s freshUuid) := by
  have hku : ∀ kv ∈ kwargs, kv.1 ≠ "uuid" := by
    intro kv hm hcontra
    have h1 := List.all_eq_true.mp hkeys kv.1 (List.mem_map_of_mem Prod.fst hm)
    rw [hcontra] at h1
    simp [eventFixedKeys] at h1
  unfold mkEvent at h
  obtain ⟨d1, h1, h⟩ := exceptBind_eq_ok.mp h
  obtain ⟨d2, h2, h⟩ := exceptBind_eq_ok.mp h
  obtain ⟨d3, h3, h⟩ := exceptBind_eq_ok.mp h
  obtain ⟨d4, h4, h⟩ := exceptBind_eq_ok.mp h
  obtain ⟨d5, h5, h⟩ := exceptBind_eq_ok.mp h
  obtain ⟨d6, h6, h⟩ := exceptBind_eq_ok.mp h
  obtain ⟨d7, h7, h⟩ := exceptBind_eq_ok.mp h
  have h7d : d7 = (eventSetAttr d6 "uuid" (.s freshUuid)).d := setStep_ok_d _ _ _ _ _ h7
  have h7err : (eventSetAttr d6 "uuid" (.s freshUuid)).err = none := by
    unfold setStep at h7
    split at h7
    · next heq => rw [heq]
    · exact absurd h7 (by simp)
  have hok : pyUuidOk freshUuid = true := by
    by_contra hx
    rw [Bool.not_eq_true] at hx
    rw [eventSetAttr_uuid_eq, if_neg (by rw [hx]; decide)] at h7err
    exact absurd h7err (by simp)
  have h7u : dget d7 "uuid" = some (.s freshUuid) := by
    rw [h7d, eventSetAttr_uuid_eq, if_pos hok, baseSetAttr_d]
    exact dget_dset_self _ _ _
  split at h
  · exact absurd h (by simp)
  · rw [Except.ok.injEq, Prod.mk.injEq] at h
    obtain ⟨hd, -⟩ := h
    subst hd
    rw [dget_dset_of_ne _ _ _ _ (by decide), dget_dset_of_ne _ _ _ _ (by decide),
      dget_foldl_dset kwargs _ _ hku]
    exact h7u

/-- C9 (amended): the uuid is generated when omitted at construction; every
reassignment is format-checked against the textual uuid form (32 hex digits
once braces and hyphens are stripped — the version bits are NOT verified);
a reassignment failing the check raises ValueError leaving the value
unchanged and writing nothing, while a reassignment passing it succeeds,
replaces the stored uuid and writes it through to the backend — the uuid
value is therefore mutable after construction.  The same holds for
catalogues. -/
theorem C9_uuid_generation_and_format_check :
    (∀ (start stop : Int) (author : String) (tags products : List PyLit)
        (rating : Option Int) (kwargs : PyDict) (freshUuid : String) (ref : Nat)
        (d : PyDict) (w : List WriteOp),
        (kwargs.map Prod.fst).all (fun k => !(eventFixedKeys.contains k)) = true →
        mkEvent start stop author none tags products rating kwargs freshUuid ref = .ok (d, w) →
        dget d "uuid" = some (.s freshUuid))
    ∧ (∀ (d : PyDict) (u : String), pyUuidOk u = false →
        eventSetAttr d "uuid" (.s u) =
          ⟨d, [], some (.valueError "badly formed hexadecimal UUID string")⟩)
    ∧ (∀ (d : PyDict) (u : String) (e : Nat), pyUuidOk u = true →
        dget d "_in_ctor" = some (.b false) →
        dget d "_backend_entity" = some (.ref e) →
        eventSetAttr d "uuid" (.s u) =
          ⟨dset d "uuid" (.s u), [.updateField e "uuid" (.s u)], none⟩
        ∧ dget (eventSetAttr d "uuid" (.s u)).d "uuid" = some (.s u))
    ∧ (∀ (d : PyDict) (u : String), pyUuidOk u = false →
        catalogueSetAttr d "uuid" (.s u) =
          ⟨d, [], some (.valueError "badly formed hexadecimal UUID string")⟩) := by
  refine ⟨mkEvent_uses_fresh_uuid, ?_, ?_, ?_⟩
  · intro d u hbad
    rw [eventSetAttr_uuid_eq, if_neg (by rw [hbad]; decide)]
  · intro d u e hok hic hbe
    have hset : eventSetAttr d "uuid" (.s u) =
        ⟨dset d "uuid" (.s u), [.updateField e "uuid" (.s u)], none⟩ := by
      rw [eventSetAttr_uuid_eq, if_pos hok]
      unfold baseSetAttr
      dsimp only
      rw [if_pos ?hcond]
      case hcond =>
        have : inCtor (dset d "uuid" (.s u)) = false := by
          unfold inCtor
          rw [dget_dset_of_ne _ _ _ _ (by decide), hic]
          decide
        simp [this]
      rw [if_pos (by decide), dget_dset_of_ne _ _ _ _ (by decide), hbe]
    refine ⟨hset, ?_⟩
    rw [hset]
    exact dget_dset_self _ _ _
  · intro d u hbad
    rw [catalogueSetAttr_uuid_eq, if_neg (by rw [hbad]; decide)]

/-- Witness for the amended C9 at concrete inputs: construction with no
uuid stores the generated one; assigning the malformed string
`"invalid-uuid"` fails and leaves the dictionary untouched; assigning the
(valid, non-version-4) nil uuid succeeds and replaces the value. -/
theorem C9_uuid_generation_and_format_check_witness :
    dget sampleUuidEvent "uuid" = some (.s uuidB)
    ∧ eventSetAttr sampleEvent "uuid" (.s "invalid-uuid") =
        ⟨sampleEvent, [], some (.valueError "badly formed hexadecimal UUID string")⟩
    ∧ eventSetAttr sampleEvent "uuid" (.s uuidNil) =
        ⟨dset sampleEvent "uuid" (.s uuidNil), [.updateField 7 "uuid" (.s uuidNil)], none⟩
    ∧ dget (eventSetAttr sampleEvent "uuid" (.s uuidNil)).d "uuid" = some (.s uuidNil)
    ∧ catalogueSetAttr sampleCatalogue "uuid" (.s "invalid-uuid") =
        ⟨sampleCatalogue, [], some (.valueError "badly formed hexadecimal UUID string")⟩ := by
  have h3 := C9_uuid_generation_and_format_check.2.2.1 sampleEvent uuidNil 7
    (by decide) (by decide) (by decide)
  exact ⟨C9_uuid_generation_and_format_check.1 0 10 "Patrick" [] [] none [] uuidB 9
      sampleUuidEvent [.addEvent 9] (by decide) (by rfl),
    C9_uuid_generation_and_format_check.2.1 sampleEvent "invalid-uuid" (by decide),
    h3.1, h3.2,
    C9_uuid_generation_and_format_check.2.2.2 sampleCatalogue "invalid-uuid" (by decide)⟩

/-! ### Storage-level model: the ORM backend's query semantics

`Storage` models the backend record store: event rows and catalogue rows,
each with a `removed` flag; a catalogue row carries the uuids of its
explicitly assigned events (the many-to-many relation `E`).  A predicate is
opaque to the query and import layers except for its `str()` form and the
row filter that its backend compilation denotes, so it is modelled by that
pair. -/

/-- Attribute values of the storage / wire model. -/
inductive AVal where
  | noneA : AVal
  | b (v : Bool) : AVal
  | i (v : Int) : AVal
  | s (v : String) : AVal
  | strList (l : List String) : AVal
deriving DecidableEq, Repr

/-- An event row of the backend store. -/
structure SEvent where
  start : Int
  stop : Int
  author : String
  uuid : String
  tags : List String
  products : List String
  rating : Option Int
  attrs : List (String × AVal)
  removed : Bool
deriving DecidableEq, Repr

/-- A predicate as seen by the query/import layers: its string form
(`str(predicate)`) and the row filter its compilation denotes. -/
structure SPred where
  pstr : String
  rowMatch : SEvent → Bool

/-- A catalogue row of the backend store; `members` is the explicit
many-to-many event assignment `E` (by event uuid). -/
structure SCatalogue where
  name : String
  author : String
  uuid : String
  tags : List String
  predicate : Option SPred
  attrs : List (String × AVal)
  removed : Bool
  members : List String

/-- The backend record store. -/
structure Storage where
  events : List SEvent
  catalogues : List SCatalogue

/-- Row semantics of `Backend._create_query` for events: the optional
compiled predicate filter and the optional "related to this catalogue"
filter are joined by `or_` when both are present, and the whole query is
conjoined with the removed-flag equality (which is the entire filter when
neither is present). -/
def createQueryEvents (s : Storage) (pred : Option (SEvent → Bool))
    (cat : Option SCatalogue) (removed : Bool) : List SEvent :=
  s.events.filter (fun e =>
    (e.removed == removed) &&
      match pred, cat with
      | none, none => true
      | some p, none => p e
      | none, some c => c.members.contains e.uuid
      | some p, some c => p e || c.members.contains e.uuid)

/-- Modelled from the spec: the backend `get_events` result rows carry an
`is_assigned` flag — "true iff the event is in `E`, for any query scoped to
a specific catalogue" (spec 4.3); with no catalogue in the query the flag
is false.  (The backend under `src/` predates this flag: `base.py` reads
`ev['is_assigned']`, which only the newer, absent backend provides.) -/
def backendGetEvents (s : Storage) (pred : Option (SEvent → Bool))
    (cat : Option SCatalogue) (removed : Bool) : List (SEvent × Bool) :=
  (createQueryEvents s pred cat removed).map (fun e =>
    (e, match cat with
        | some c => c.members.contains e.uuid
        | none => false))

/-- `_get_events_from_catalogue` (`base.py`): the query starts with the
catalogue's entity and predicate plus the removed flag; `assigned_only`
deletes the predicate key, `filtered_only` deletes the entity key. -/
def getEventsFromCatalogue (s : Storage) (c : SCatalogue)
    (removedItems assignedOnly filteredOnly : Bool) : List (SEvent × Bool) :=
  let pred := if assignedOnly then none else c.predicate.map (fun p => p.rowMatch)
  let ent := if filteredOnly then none else some c
  backendGetEvents s pred ent removedItems

theorem getEventsFromCatalogue_default_mem (s : Storage) (c : SCatalogue) (P : SPred)
    (r : Bool) (hp : c.predicate = some P) (e : SEvent) (f : Bool) :
    (e, f) ∈ getEventsFromCatalogue s c r false false ↔
      (e ∈ s.events ∧ e.removed = r ∧
        (c.members.contains e.uuid = true ∨ P.rowMatch e = true) ∧
        f = c.members.contains e.uuid) := by
  unfold getEventsFromCatalogue backendGetEvents createQueryEvents
  simp [hp, List.mem_filter]
  constructor
  · rintro ⟨a, ⟨hmem, hrem, hcond⟩, rfl, rfl⟩
    exact ⟨hmem, hrem, hcond.symm, rfl⟩
  · rintro ⟨hmem, hrem, hcond, rfl⟩
    exact ⟨e, ⟨hmem, hrem, hcond.symm⟩, rfl, rfl⟩

theorem getEventsFromCatalogue_assigned_mem (s : Storage) (c : SCatalogue)
    (r : Bool) (e : SEvent) (f : Bool) :
    (e, f) ∈ getEventsFromCatalogue s c r true false ↔
      (e ∈ s.events ∧ e.removed = r ∧ c.members.contains e.uuid = true ∧ f = true) := by
  unfold getEventsFromCatalogue backendGetEvents createQueryEvents
  simp [List.mem_filter]
  constructor
  · rintro ⟨a, ⟨hmem, hrem, hcond⟩, rfl, rfl⟩
    exact ⟨hmem, hrem, hcond, by simp [hcond]⟩
  · rintro ⟨hmem, hrem, hcond, rfl⟩
    exact ⟨e, ⟨hmem, hrem, hcond⟩, rfl, by simp [hcond]⟩

theorem getEventsFromCatalogue_filtered_mem (s : Storage) (c : SCatalogue) (P : SPred)
    (r : Bool) (hp : c.predicate = some P) (e : SEvent) (f : Bool) :
    (e, f) ∈ getEventsFromCatalogue s c r false true ↔
      (e ∈ s.events ∧ e.removed = r ∧ P.rowMatch e = true ∧ f = false) := by
  unfold getEventsFromCatalogue backendGetEvents createQueryEvents
  simp [hp, List.mem_filter]
  constructor
  · rintro ⟨a, ⟨hmem, hrem, hcond⟩, rfl, rfl⟩
    exact ⟨hmem, hrem, hcond, rfl⟩
  · rintro ⟨hmem, hrem, hcond, rfl⟩
    exact ⟨e, ⟨hmem, hrem, hcond⟩, rfl, rfl⟩

theorem getEventsFromCatalogue_nodup (s : Storage) (c : SCatalogue)
    (r a fo : Bool) (h : s.events.Nodup) :
    ((getEventsFromCatalogue s c r a fo).map Prod.fst).Nodup := by
  unfold getEventsFromCatalogue backendGetEvents createQueryEvents
  rw [List.map_map]
  have hid : (Prod.fst ∘ fun e : SEvent =>
      ((e, match if fo = true then none else some c with
            | some c => c.members.contains e.uuid
            | none => false) : SEvent × Bool)) = id := by
    funext e
    rfl
  rw [hid, List.map_id]
  exact h.filter _

/-- C4: for a catalogue `c` with explicit member set `E` (`c.members`) and
predicate `P`, the default catalogue query returns exactly
`E ∪ {events matching P}` among the events with the requested removed flag,
de-duplicated (each stored row appears at most once), and flags each
returned event `assigned` exactly when it is in `E`; with
`assigned_only = true` the result is exactly `E` (even though `P` is
present), and with `filtered_only = true` it is exactly the predicate
matches, ignoring `E`. -/
theorem C4_dynamic_catalogue_membership (s : Storage) (c : SCatalogue) (P : SPred)
    (r : Bool) (hp : c.predicate = some P) :
    (∀ (e : SEvent) (f : Bool), (e, f) ∈ getEventsFromCatalogue s c r false false ↔
      (e ∈ s.events ∧ e.removed = r ∧
        (c.members.contains e.uuid = true ∨ P.rowMatch e = true) ∧
        f = c.members.contains e.uuid))
    ∧ (∀ (e : SEvent) (f : Bool), (e, f) ∈ getEventsFromCatalogue s c r true false ↔
      (e ∈ s.events ∧ e.removed = r ∧ c.members.contains e.uuid = true ∧ f = true))
    ∧ (∀ (e : SEvent) (f : Bool), (e, f) ∈ getEventsFromCatalogue s c r false true ↔
      (e ∈ s.events ∧ e.removed = r ∧ P.rowMatch e = true ∧ f = false))
    ∧ (s.events.Nodup →
        ((getEventsFromCatalogue s c r false false).map Prod.fst).Nodup) :=
  ⟨getEventsFromCatalogue_default_mem s c P r hp,
   getEventsFromCatalogue_assigned_mem s c r,
   getEventsFromCatalogue_filtered_mem s c P r hp,
   getEventsFromCatalogue_nodup s c r false false⟩

/-- Event rows and a dynamic catalogue mirroring the spec's membership
scenario: `evA` matches the predicate, `evB` is explicitly assigned,
`evC` is neither. -/
def evA : SEvent := ⟨0, 10, "Alexis", uuidA, [], [], none, [], false⟩

def evB : SEvent := ⟨0, 10, "Nicolas", uuidB, [], [], none, [], false⟩

def evC : SEvent := ⟨0, 10, "Patrick", uuidNil, [], [], none, [], false⟩

def predAlexis : SPred := ⟨"author == 'Alexis'", fun e => e.author == "Alexis"⟩

def catDyn : SCatalogue :=
  ⟨"Dyn", "Patrick", uuidB, [], some predAlexis, [], false, [uuidB]⟩

def storage3 : Storage := ⟨[evA, evB, evC], [catDyn]⟩

/-- Witness for C4 at the spec's scenario: the matched event `evA` is
returned flagged unassigned, the assigned event `evB` is returned flagged
assigned, `evC` is absent; `assigned_only` keeps only `evB`; and
`filtered_only` keeps only `evA` (flag false). -/
theorem C4_dynamic_catalogue_membership_witness :
    (evA, false) ∈ getEventsFromCatalogue storage3 catDyn false false false
    ∧ (evB, true) ∈ getEventsFromCatalogue storage3 catDyn false false false
    ∧ ¬((evC, false) ∈ getEventsFromCatalogue storage3 catDyn false false false)
    ∧ (evB, true) ∈ getEventsFromCatalogue storage3 catDyn false true false
    ∧ ¬((evA, false) ∈ getEventsFromCatalogue storage3 catDyn false true false)
    ∧ (evA, false) ∈ getEventsFromCatalogue storage3 catDyn false false true
    ∧ ¬((evB, false) ∈ getEventsFromCatalogue storage3 catDyn false false true) := by
  have T := C4_dynamic_catalogue_membership storage3 catDyn predAlexis false rfl
  refine ⟨(T.1 evA false).mpr (by refine ⟨by decide, by decide, ?_, by decide⟩; right; decide),
    (T.1 evB true).mpr (by refine ⟨by decide, by decide, ?_, by decide⟩; left; decide),
    fun h => ?_,
    (T.2.1 evB true).mpr ⟨by decide, by decide, by decide, rfl⟩,
    fun h => ?_,
    (T.2.2.1 evA false).mpr ⟨by decide, by decide, by decide, rfl⟩,
    fun h => ?_⟩
  · obtain ⟨-, -, hcond, -⟩ := (T.1 evC false).mp h
    rcases hcond with hcond | hcond <;> revert hcond <;> decide
  · obtain ⟨-, -, hcond, -⟩ := (T.2.1 evA false).mp h
    revert hcond
    decide
  · obtain ⟨-, -, hcond, -⟩ := (T.2.2.1 evB false).mp h
    revert hcond
    decide

/-- C10: calling `get_events` on a catalogue with both `assigned_only` and
`filtered_only` set deletes both the predicate and the entity key from the
query, so the backend filter degenerates to the removed-flag equality
alone: the call returns every event in storage whose removed flag matches —
independently of the catalogue, not any subset of its membership — with
every `assigned` flag false. -/
theorem C10_both_narrowing_flags_return_all_events (s : Storage) (c : SCatalogue)
    (r : Bool) :
    getEventsFromCatalogue s c r true true =
      (s.events.filter (fun e => e.removed == r)).map (fun e => (e, false))
    ∧ ∀ c' : SCatalogue, getEventsFromCatalogue s c r true true =
        getEventsFromCatalogue s c' r true true := by
  have key : ∀ c0 : SCatalogue, getEventsFromCatalogue s c0 r true true =
      (s.events.filter (fun e => e.removed == r)).map (fun e => (e, false)) := by
    intro c0
    unfold getEventsFromCatalogue backendGetEvents createQueryEvents
    simp
  exact ⟨key c, fun c' => by rw [key c, key c']⟩

/-! ### Import/export reconciliation (`import_export.py`)

The JSON layer is modelled after decoding: a `Bundle` holds the dumped
catalogues (with their member-uuid lists and stringified predicates) and
the dumped events (timestamps as their isoformat strings).  `isoformat` /
`fromisoformat` are modelled by the decimal encoding of the integer
timestamps — only injectivity and round-tripping matter to this code. -/

/-- Errors raised on the import path. -/
inductive ImpErr where
  /-- `ValueError('Import: event with UUID … already exists …')`. -/
  | conflictEvent (uuid : String)
  /-- `ValueError('Import: catalogue with UUID … already exists …')`. -/
  | conflictCatalogue (uuid : String)
  /-- `IndexError` from `get_events(UUID(uuid))[0]` on an empty result:
  a member uuid resolvable neither among the created nor the stored events. -/
  | notFound (uuid : String)
  /-- A `ValueError` raised by entity construction during the commit phase. -/
  | validation (msg : String)
deriving DecidableEq, Repr

/-- The two canonicalize-phase conflict errors. -/
def ImpErr.isConflict : ImpErr → Bool
  | .conflictEvent _ => true
  | .conflictCatalogue _ => true
  | _ => false

/-- A dumped event of a decoded bundle (`_Event.dump()` through JSON):
timestamps as isoformat strings. -/
structure DEvent where
  start : String
  stop : String
  author : String
  uuid : String
  tags : List String
  products : List String
  rating : Option Int
  attrs : List (String × AVal)
deriving DecidableEq, Repr

/-- A dumped catalogue of a decoded bundle: stringified predicate and the
member-event uuid list under the `events` key. -/
structure DCatalogue where
  name : String
  author : String
  uuid : String
  tags : List String
  predicate : Option String
  attrs : List (String × AVal)
  events : List String
deriving DecidableEq, Repr

/-- A decoded JSON bundle. -/
structure Bundle where
  catalogues : List DCatalogue
  events : List DEvent
deriving DecidableEq, Repr

/-- `datetime.isoformat` on the integer timestamp model. -/
def isoformat (t : Int) : String := toString t

/-- `datetime.fromisoformat`; `none` models the `ValueError` on a
non-parsable string. -/
def fromisoformat (sv : String) : Option Int := sv.toInt?

/-- Python dict equality on the attribute mappings (same key set, equal
values). -/
def attrsEq (a b : List (String × AVal)) : Bool :=
  a.all (fun kv => b.lookup kv.1 == some kv.2) &&
    b.all (fun kv => a.lookup kv.1 == some kv.2)

/-- The comparable dump of an existing event built by
`__canonicalize_from_dict`: the backend dict with `entity` dropped, the
attributes flattened in, and `start` / `stop` isoformatted. -/
def checkEventOf (e : SEvent) : DEvent :=
  ⟨isoformat e.start, isoformat e.stop, e.author, e.uuid, e.tags, e.products,
    e.rating, e.attrs⟩

/-- Python dict equality between the reconstructed dump of an existing
event and a bundled event (`check_event != event`). -/
def eventDictEq (a b : DEvent) : Bool :=
  a.start == b.start && a.stop == b.stop && a.author == b.author &&
    a.uuid == b.uuid && a.tags == b.tags && a.products == b.products &&
    a.rating == b.rating && attrsEq a.attrs b.attrs

/-- Modelled from the spec: `Backend.get_events_by_uuid_list` — the durable
store is "reachable by primary key", `get_events_by_uuid_list([uuid]) ->
{uuid: dict}` (spec 6).  The backend under `src/` predates this method. -/
def findEventByUuid (s : Storage) (u : String) : Option SEvent :=
  s.events.find? (fun e => e.uuid == u)

/-- `get_catalogues(UUID(u))` as used by canonicalize: the non-removed
catalogues whose uuid equals `u` (via `_create_query` with the compiled
`Comparison('==', Field('uuid'), u)` filter); `head?` models `[0]`. -/
def findCatalogueByUuid (s : Storage) (u : String) : Option SCatalogue :=
  (s.catalogues.filter (fun c => c.uuid == u && c.removed == false)).head?

/-- Modelled from the spec: the member-event uuids of an existing catalogue
used in the canonicalize comparison — its full membership per 4.3/4.5
("compute their membership", "a sorted member-event-UUID list"), i.e. the
default catalogue event query.  (In `src/` this call,
`get_events(check_catalogue[0])`, is version-skewed: `base.py`'s
`get_events` returns an `(events, info)` pair and depends on backend pieces
absent from `src/`, so the spec's reading is modelled.) -/
def catalogueMemberUuids (s : Storage) (c : SCatalogue) : List String :=
  (getEventsFromCatalogue s c false false false).map (fun ef => ef.1.uuid)

/-- Python dict equality between the converted dump of an existing
catalogue (member uuids sorted, predicate stringified) and a bundled
catalogue (its `events` list sorted in place). -/
def catalogueDictEq (s : Storage) (sc : SCatalogue) (c : DCatalogue) : Bool :=
  sc.name == c.name && sc.author == c.author && sc.uuid == c.uuid &&
    sc.tags == c.tags && (sc.predicate.map SPred.pstr) == c.predicate &&
    attrsEq sc.attrs c.attrs &&
    sortKeys (catalogueMemberUuids s sc) == sortKeys c.events

/-- The events loop of `__canonicalize_from_dict`: a bundled event whose
uuid exists in storage is dropped when the dumps compare equal and aborts
the import with the conflict `ValueError` otherwise; unseen uuids are
kept.  The loop performs no writes. -/
def canonEvents (s : Storage) : List DEvent → Except ImpErr (List DEvent)
  | [] => .ok []
  | b :: rest =>
    match findEventByUuid s b.uuid with
    | none => do
      let kept ← canonEvents s rest
      .ok (b :: kept)
    | some e =>
      if eventDictEq (checkEventOf e) b then canonEvents s rest
      else .error (.conflictEvent b.uuid)

/-- The catalogues loop of `__canonicalize_from_dict`: same
lookup/compare/drop-or-abort discipline, against the converted dump of the
existing catalogue.  No writes. -/
def canonCatalogues (s : Storage) : List DCatalogue → Except ImpErr (List DCatalogue)
  | [] => .ok []
  | c :: rest =>
    match findCatalogueByUuid s c.uuid with
    | none => do
      let kept ← canonCatalogues s rest
      .ok (c :: kept)
    | some sc =>
      if catalogueDictEq s sc c then canonCatalogues s rest
      else .error (.conflictCatalogue c.uuid)

/-- `__canonicalize_from_dict`: events first, then catalogues; read-only. -/
def canonicalizeFromDict (s : Storage) (b : Bundle) :
    Except ImpErr (List DCatalogue × List DEvent) := do
  let events ← canonEvents s b.events
  let catalogues ← canonCatalogues s b.catalogues
  .ok (catalogues, events)

/-- A predicate object as created by the import commit phase:
`create_catalogue(**catalogue_dict)` receives the *string* form from the
bundle and stores it unchanged (a quirk of the source); its `str()` is the
string itself and it denotes no row filter. -/
def strPredicate (sv : String) : SPred := ⟨sv, fun _ => false⟩

/-- `s.create_event(**event)` during the commit phase: isoformat parsing of
the timestamps followed by the `_Event` constructor validations. -/
def mkSEventFromDEvent (b : DEvent) : Except ImpErr SEvent :=
  match fromisoformat b.start, fromisoformat b.stop with
  | some t1, some t2 =>
    if t2 < t1 then .error (.validation "stop date has to be after start date")
    else if b.tags.any (fun t => t.toList.contains ',') then
      .error (.validation "a string-list value shall not contain a comma")
    else if b.products.any (fun t => t.toList.contains ',') then
      .error (.validation "a string-list value shall not contain a comma")
    else if (match b.rating with | some n => n < 1 || 10 < n | none => false) then
      .error (.validation "rating has to be between 1 and 10")
    else if !(pyUuidOk b.uuid) then
      .error (.validation "badly formed hexadecimal UUID string")
    else if !(b.attrs.all (fun kv => validKey kv.1)) then
      .error (.validation "Invalid key-name for event-meta-data in kwargs")
    else .ok ⟨t1, t2, b.author, b.uuid, b.tags, b.products, b.rating, b.attrs, false⟩
  | _, _ => .error (.validation "Invalid isoformat string")

/-- `s.create_catalogue(**catalogue_dict)` during the commit phase:
`_Catalogue` constructor validations; the member list starts empty. -/
def mkSCatalogueFromDCatalogue (c : DCatalogue) : Except ImpErr SCatalogue :=
  if c.name.isEmpty then .error (.validation "Catalogue name cannot be emtpy.")
  else if c.tags.any (fun t => t.toList.contains ',') then
    .error (.validation "a string-list value shall not contain a comma")
  else if !(pyUuidOk c.uuid) then
    .error (.validation "badly formed hexadecimal UUID string")
  else if !(c.attrs.all (fun kv => validKey kv.1)) then
    .error (.validation "Invalid key-name for event-meta-data in kwargs")
  else .ok ⟨c.name, c.author, c.uuid, c.tags, c.predicate.map strPredicate,
    c.attrs, false, []⟩

/-- The event loop of `__import_canonicalized_dict`: create every kept
event in bundle order; an exception keeps the events created so far in the
(uncommitted) store. -/
def commitEvents (s : Storage) (created : List String) :
    List DEvent → (Except ImpErr (List String)) × Storage
  | [] => (.ok created, s)
  | b :: rest =>
    match mkSEventFromDEvent b with
    | .error e => (.error e, s)
    | .ok ev => commitEvents ⟨s.events ++ [ev], s.catalogues⟩ (created ++ [b.uuid]) rest

/-- Resolution of one member uuid: a just-created event (`event_of_uuid`)
or an existing, non-removed event fetched by `get_events(UUID(uuid))[0]`. -/
def resolveMember (s : Storage) (created : List String) (u : String) :
    Except ImpErr Unit :=
  if created.contains u then .ok ()
  else
    match s.events.find? (fun e => e.uuid == u && e.removed == false) with
    | some _ => .ok ()
    | none => .error (.notFound u)

/-- Resolution of a whole member-uuid list, in order. -/
def resolveMembers (s : Storage) (created : List String) :
    List String → Except ImpErr Unit
  | [] => .ok ()
  | u :: rest => do
    let _ ← resolveMember s created u
    resolveMembers s created rest

/-- `add_events_to_catalogue` on a fresh catalogue: events are appended to
the explicit membership one by one; an event already present raises
`ValueError('Event is already in catalogue.')`. -/
def addMembers (members : List String) : List String → Except ImpErr (List String)
  | [] => .ok members
  | u :: rest =>
    if members.contains u then .error (.validation "Event is already in catalogue.")
    else addMembers (members ++ [u]) rest

/-- The catalogue loop of `__import_canonicalized_dict`: resolve the member
uuids, create the catalogue, attach the members; created catalogues are
collected and returned. -/
def commitCatalogues (s : Storage) (created : List String) (acc : List SCatalogue) :
    List DCatalogue → (Except ImpErr (List SCatalogue)) × Storage
  | [] => (.ok acc, s)
  | c :: rest =>
    match resolveMembers s created c.events with
    | .error e => (.error e, s)
    | .ok () =>
      match mkSCatalogueFromDCatalogue c with
      | .error e => (.error e, s)
      | .ok sc =>
        match addMembers [] c.events with
        | .error e => (.error e, ⟨s.events, s.catalogues ++ [sc]⟩)
        | .ok ms =>
          let sc' : SCatalogue := ⟨sc.name, sc.author, sc.uuid, sc.tags,
            sc.predicate, sc.attrs, sc.removed, ms⟩
          commitCatalogues ⟨s.events, s.catalogues ++ [sc']⟩ created (acc ++ [sc']) rest

/-- `__import_canonicalized_dict`: one session creating all kept events,
then all kept catalogues with their explicit assignments; only the newly
created catalogues are returned. -/
def importCanonicalizedDict (s : Storage) (cats : List DCatalogue)
    (events : List DEvent) : (Except ImpErr (List SCatalogue)) × Storage :=
  match commitEvents s [] events with
  | (.error e, s') => (.error e, s')
  | (.ok created, s') => commitCatalogues s' created [] cats

/-- `import_json` after JSON decoding: canonicalize (read-only), then
commit; a canonicalize error aborts before any write, leaving storage
untouched. -/
def importBundle (s : Storage) (b : Bundle) :
    (Except ImpErr (List SCatalogue)) × Storage :=
  match canonicalizeFromDict s b with
  | .error e => (.error e, s)
  | .ok (cats, events) => importCanonicalizedDict s cats events

theorem canonEvents_error_isConflict (s : Storage) (l : List DEvent) (err : ImpErr)
    (h : canonEvents s l = .error err) : err.isConflict = true := by
  induction l with
  | nil => exact absurd h (by simp [canonEvents])
  | cons b rest ih =>
    unfold canonEvents at h
    split at h
    · cases hrest : canonEvents s rest with
      | error e =>
        rw [hrest] at h
        simp only [Bind.bind, Except.bind, Except.error.injEq] at h
        subst h
        exact ih hrest
      | ok kept =>
        rw [hrest] at h
        simp [Bind.bind, Except.bind] at h
    · split at h
      · exact ih h
      · rw [Except.error.injEq] at h
        subst h
        rfl

theorem canonCatalogues_error_isConflict (s : Storage) (l : List DCatalogue)
    (err : ImpErr) (h : canonCatalogues s l = .error err) : err.isConflict = true := by
  induction l with
  | nil => exact absurd h (by simp [canonCatalogues])
  | cons c rest ih =>
    unfold canonCatalogues at h
    split at h
    · cases hrest : canonCatalogues s rest with
      | error e =>
        rw [hrest] at h
        simp only [Bind.bind, Except.bind, Except.error.injEq] at h
        subst h
        exact ih hrest
      | ok kept =>
        rw [hrest] at h
        simp [Bind.bind, Except.bind] at h
    · split at h
      · exact ih h
      · rw [Except.error.injEq] at h
        subst h
        rfl

theorem canonEvents_error_of_conflict (s : Storage) (l : List DEvent)
    (h : ∃ be ∈ l, ∃ e, findEventByUuid s be.uuid = some e ∧
      eventDictEq (checkEventOf e) be = false) :
    ∃ err, canonEvents s l = .error err := by
  induction l with
  | nil => simp at h
  | cons b rest ih =>
    obtain ⟨be, hmem, e, hfind, hneq⟩ := h
    rw [List.mem_cons] at hmem
    unfold canonEvents
    rcases hmem with rfl | hmem
    · rw [hfind]
      dsimp only
      rw [if_neg (by simp [hneq])]
      exact ⟨_, rfl⟩
    · cases hf : findEventByUuid s b.uuid with
      | none =>
        dsimp only
        obtain ⟨err, herr⟩ := ih ⟨be, hmem, e, hfind, hneq⟩
        rw [herr]
        exact ⟨err, rfl⟩
      | some e' =>
        dsimp only
        by_cases heq : eventDictEq (checkEventOf e') b = true
        · rw [if_pos heq]
          exact ih ⟨be, hmem, e, hfind, hneq⟩
        · rw [if_neg heq]
          exact ⟨_, rfl⟩

theorem canonCatalogues_error_of_conflict (s : Storage) (l : List DCatalogue)
    (h : ∃ bc ∈ l, ∃ sc, findCatalogueByUuid s bc.uuid = some sc ∧
      catalogueDictEq s sc bc = false) :
    ∃ err, canonCatalogues s l = .error err := by
  induction l with
  | nil => simp at h
  | cons c rest ih =>
    obtain ⟨bc, hmem, sc, hfind, hneq⟩ := h
    rw [List.mem_cons] at hmem
    unfold canonCatalogues
    rcases hmem with rfl | hmem
    · rw [hfind]
      dsimp only
      rw [if_neg (by simp [hneq])]
      exact ⟨_, rfl⟩
    · cases hf : findCatalogueByUuid s c.uuid with
      | none =>
        dsimp only
        obtain ⟨err, herr⟩ := ih ⟨bc, hmem, sc, hfind, hneq⟩
        rw [herr]
        exact ⟨err, rfl⟩
      | some sc' =>
        dsimp only
        by_cases heq : catalogueDictEq s sc' c = true
        · rw [if_pos heq]
          exact ih ⟨bc, hmem, sc, hfind, hneq⟩
        · rw [if_neg heq]
          exact ⟨_, rfl⟩

theorem canonEvents_ok_all_dropped (s : Storage) (l : List DEvent)
    (h : ∀ be ∈ l, ∃ e, findEventByUuid s be.uuid = some e ∧
      eventDictEq (checkEventOf e) be = true) :
    canonEvents s l = .ok [] := by
  induction l with
  | nil => rfl
  | cons b rest ih =>
    obtain ⟨e, hfind, heq⟩ := h b (List.mem_cons_self b rest)
    unfold canonEvents
    rw [hfind]
    dsimp only
    rw [if_pos heq]
    exact ih (fun be hm => h be (List.mem_cons_of_mem b hm))

theorem canonCatalogues_ok_all_dropped (s : Storage) (l : List DCatalogue)
    (h : ∀ bc ∈ l, ∃ sc, findCatalogueByUuid s bc.uuid = some sc ∧
      catalogueDictEq s sc bc = true) :
    canonCatalogues s l = .ok [] := by
  induction l with
  | nil => rfl
  | cons c rest ih =>
    obtain ⟨sc, hfind, heq⟩ := h c (List.mem_cons_self c rest)
    unfold canonCatalogues
    rw [hfind]
    dsimp only
    rw [if_pos heq]
    exact ih (fun bc hm => h bc (List.mem_cons_of_mem c hm))

/-- C1: if some bundled event or catalogue shares a uuid with an entity
already in storage but diverges from it under the canonicalize comparison,
the import returns the conflict `ValueError` and storage is completely
unchanged — the conflict is found during the read-only canonicalize phase,
sequenced before any create or assignment of the commit phase. -/
theorem C1_import_conflict_aborts_unchanged (s : Storage) (b : Bundle)
    (hconf : (∃ be ∈ b.events, ∃ e, findEventByUuid s be.uuid = some e ∧
        eventDictEq (checkEventOf e) be = false)
      ∨ (∃ bc ∈ b.catalogues, ∃ sc, findCatalogueByUuid s bc.uuid = some sc ∧
        catalogueDictEq s sc bc = false)) :
    (importBundle s b).2 = s ∧
      ∃ err, (importBundle s b).1 = .error err ∧ err.isConflict = true := by
  have hcanon : ∃ err, canonicalizeFromDict s b = .error err ∧ err.isConflict = true := by
    rcases hconf with hevc | hcatc
    · obtain ⟨err, herr⟩ := canonEvents_error_of_conflict s b.events hevc
      refine ⟨err, ?_, canonEvents_error_isConflict s b.events err herr⟩
      unfold canonicalizeFromDict
      rw [herr]
      rfl
    · cases hev : canonEvents s b.events with
      | error e =>
        refine ⟨e, ?_, canonEvents_error_isConflict s b.events e hev⟩
        unfold canonicalizeFromDict
        rw [hev]
        rfl
      | ok kept =>
        obtain ⟨err, herr⟩ := canonCatalogues_error_of_conflict s b.catalogues hcatc
        refine ⟨err, ?_, canonCatalogues_error_isConflict s b.catalogues err herr⟩
        unfold canonicalizeFromDict
        rw [hev]
        simp only [Bind.bind, Except.bind]
        rw [herr]
  obtain ⟨err, herr, hc⟩ := hcanon
  unfold importBundle
  rw [herr]
  exact ⟨rfl, err, rfl, hc⟩

/-- C2: a bundle whose events and catalogues all already exist identically
in storage (field-for-field after timestamp normalisation, with sorted
member-uuid lists and stringified predicates for catalogues) imports as a
no-op: no exception, no write, no returned catalogue — every entry is
dropped during canonicalization. -/
theorem C2_import_idempotent (s : Storage) (b : Bundle)
    (hev : ∀ be ∈ b.events, ∃ e, findEventByUuid s be.uuid = some e ∧
      eventDictEq (checkEventOf e) be = true)
    (hcat : ∀ bc ∈ b.catalogues, ∃ sc, findCatalogueByUuid s bc.uuid = some sc ∧
      catalogueDictEq s sc bc = true) :
    importBundle s b = (.ok [], s) := by
  have h1 := canonEvents_ok_all_dropped s b.events hev
  have h2 := canonCatalogues_ok_all_dropped s b.catalogues hcat
  unfold importBundle canonicalizeFromDict
  rw [h1]
  simp only [Bind.bind, Except.bind]
  rw [h2]
  rfl

/-- A stored event, its faithful bundle dump, and a conflicting dump with a
different author; a stored catalogue holding the event, and its faithful
bundle dump. -/
def seImp : SEvent := ⟨0, 10, "Patrick", uuidA, [], [], none, [], false⟩

def deImpGood : DEvent := ⟨"0", "10", "Patrick", uuidA, [], [], none, []⟩

def deImpBad : DEvent := ⟨"0", "10", "Someone Else", uuidA, [], [], none, []⟩

def scImp : SCatalogue := ⟨"Cat", "Patrick", uuidB, [], none, [], false, [uuidA]⟩

def dcImpGood : DCatalogue := ⟨"Cat", "Patrick", uuidB, [], none, [], [uuidA]⟩

def dcImpBad : DCatalogue := ⟨"Cat", "Someone Else", uuidB, [], none, [], [uuidA]⟩

def storageImp : Storage := ⟨[seImp], [scImp]⟩

def bundleEventConflict : Bundle := ⟨[dcImpGood], [deImpBad]⟩

def bundleCatalogueConflict : Bundle := ⟨[dcImpBad], [deImpGood]⟩

def bundleIdentical : Bundle := ⟨[dcImpGood], [deImpGood]⟩

/-- Witness for C1 at concrete inputs: a bundle whose event shares the uuid
of a stored event with a different author (and one whose catalogue differs)
aborts with a conflict error, storage unchanged. -/
theorem C1_import_conflict_aborts_unchanged_witness :
    ((importBundle storageImp bundleEventConflict).2 = storageImp ∧
      ∃ err, (importBundle storageImp bundleEventConflict).1 = .error err ∧
        err.isConflict = true)
    ∧ ((importBundle storageImp bundleCatalogueConflict).2 = storageImp ∧
      ∃ err, (importBundle storageImp bundleCatalogueConflict).1 = .error err ∧
        err.isConflict = true) :=
  ⟨C1_import_conflict_aborts_unchanged storageImp bundleEventConflict
      (.inl ⟨deImpBad, by decide, seImp, by rfl, by decide⟩),
    C1_import_conflict_aborts_unchanged storageImp bundleCatalogueConflict
      (.inr ⟨dcImpBad, by decide, scImp, by rfl, by decide⟩)⟩

/-- Witness for C2 at concrete inputs: re-importing the faithful dump of
the stored event and catalogue raises nothing, writes nothing and returns
no catalogues. -/
theorem C2_import_idempotent_witness :
    importBundle storageImp bundleIdentical = (.ok [], storageImp) :=
  C2_import_idempotent storageImp bundleIdentical
    (by
      intro be hbe
      simp only [bundleIdentical, List.mem_singleton] at hbe
      subst hbe
      exact ⟨seImp, by rfl, by decide⟩)
    (by
      intro bc hbc
      simp only [bundleIdentical, List.mem_singleton] at hbc
      subst hbc
      exact ⟨scImp, by rfl, by decide⟩)

/-! ### Predicate compilation and cycle detection
(`orm_sqlalchemy.PredicateVisitor`)

The Python predicate object graph — which can be cyclic, e.g.
`a.predicate = InCatalogue(a)` — is modelled as an arena: a store of
numbered predicate nodes, plus a map from catalogue (backend) ids to that
catalogue's own predicate node.  The visitor's per-query
`visited_predicates` set keyed by `id(pred)` becomes a list of node ids
threaded through the recursion; the Python call stack is modelled by fuel,
and fuel exhaustion is an artefact that the sufficiency theorem rules
out. -/

/-- Reference to a fixed field or a variable attribute inside a predicate. -/
inductive LhsRef where
  | field (name : String)
  | attr (name : String)
deriving DecidableEq, Repr

/-- Predicate AST nodes in arena form. -/
inductive PredShape where
  | comparison (op : String) (lhs : LhsRef) (rhs : AVal)
  | matchShape (lhs : LhsRef) (re : String)
  | hasShape (attrName : String)
  | inShape (lhsVal : String) (rhs : LhsRef)
  | allShape (children : List Nat)
  | anyShape (children : List Nat)
  | notShape (child : Nat)
  | inCatalogueShape (cat : Option Nat)
deriving DecidableEq, Repr

/-- Compiled backend filter expressions, symbolically (the SQLAlchemy
expressions the visitor builds). -/
inductive QFilter where
  | cmpField (op : String) (name : String) (rhs : AVal)
  | cmpAttr (op : String) (name : String) (rhs : AVal)
  | matchField (name : String) (re : String)
  | matchAttr (name : String) (re : String)
  | hasAttr (name : String)
  | inField (v : String) (name : String)
  | inAttr (v : String) (name : String)
  | andAll (fs : List QFilter)
  | orAny (fs : List QFilter)
  | notQ (f : QFilter)
  | assignedToNone
  | assignedTo (catId : Nat)
deriving Repr

/-- Errors of the visitor. -/
inductive VErr where
  /-- `PredicateRecursionError`: an already-visited node was reached again. -/
  | recursion : VErr
  /-- `CatalogueFilterError`: `InCatalogue` while filtering catalogues. -/
  | catalogueFilter : VErr
  /-- Artefact of the fuel model (the Python stack has no such bound). -/
  | fuelOut : VErr
  /-- Artefact: a dangling node reference (Python references live objects). -/
  | badRef : VErr
deriving DecidableEq, Repr

mutual

/-- `PredicateVisitor.visit_predicate`: raise `PredicateRecursionError` if
the node was already visited, record it, and dispatch on its kind —
`All`/`Any` visit their children left to right through the shared visited
set, `Not` its operand, and `InCatalogue` on a dynamic catalogue visits
that catalogue's own predicate (joined by `or_` with the assignment
filter), which is where cycles can occur. -/
def visitPred (store : List (Nat × PredShape)) (cats : List (Nat × Option Nat))
    (forCatalogues : Bool) :
    Nat → List Nat → Nat → Except VErr (QFilter × List Nat)
  | 0, _, _ => .error .fuelOut
  | fuel+1, visited, pid =>
    if visited.contains pid then .error .recursion
    else
      match store.lookup pid with
      | none => .error .badRef
      | some shape =>
        let visited' := pid :: visited
        match shape with
        | .comparison op lhs rhs =>
          .ok (match lhs with
               | .field n => .cmpField op n rhs
               | .attr n => .cmpAttr op n rhs, visited')
        | .matchShape lhs re =>
          .ok (match lhs with
               | .field n => .matchField n re
               | .attr n => .matchAttr n re, visited')
        | .hasShape a => .ok (.hasAttr a, visited')
        | .inShape v rhs =>
          .ok (match rhs with
               | .field n => .inField v n
               | .attr n => .inAttr v n, visited')
        | .allShape cs => do
          let (qs, v) ← visitList store cats forCatalogues fuel visited' cs
          .ok (.andAll qs, v)
        | .anyShape cs => do
          let (qs, v) ← visitList store cats forCatalogues fuel visited' cs
          .ok (.orAny qs, v)
        | .notShape c => do
          let (q, v) ← visitPred store cats forCatalogues fuel visited' c
          .ok (.notQ q, v)
        | .inCatalogueShape catRef =>
          if forCatalogues then .error .catalogueFilter
          else
            match catRef with
            | none => .ok (.assignedToNone, visited')
            | some cid =>
              match cats.lookup cid with
              | none => .error .badRef
              | some none => .ok (.assignedTo cid, visited')
              | some (some ppid) => do
                let (q, v) ← visitPred store cats forCatalogues fuel visited' ppid
                .ok (.orAny [.assignedTo cid, q], v)
termination_by fuel _ _ => (fuel, 0)

/-- Sequential visit of `All`/`Any` children through the shared visited
set (the `and_(...)` / `or_(...)` generator consumption). -/
def visitList (store : List (Nat × PredShape)) (cats : List (Nat × Option Nat))
    (forCatalogues : Bool) :
    Nat → List Nat → List Nat → Except VErr (List QFilter × List Nat)
  | _, visited, [] => .ok ([], visited)
  | fuel, visited, c :: cs => do
    let (q, v1) ← visitPred store cats forCatalogues fuel visited c
    let (qs, v2) ← visitList store cats forCatalogues fuel v1 cs
    .ok (q :: qs, v2)
termination_by fuel _ cs => (fuel, cs.length + 1)

end

theorem length_filter_le_of_imp (l : List Nat) (p q : Nat → Bool)
    (h : ∀ x, p x = true → q x = true) :
    (l.filter p).length ≤ (l.filter q).length := by
  induction l with
  | nil => simp
  | cons a lt ih =>
    by_cases hp : p a = true
    · rw [List.filter_cons_of_pos hp, List.filter_cons_of_pos (h a hp)]
      simpa using ih
    · rw [List.filter_cons_of_neg (by simp [hp])]
      by_cases hq : q a = true
      · rw [List.filter_cons_of_pos hq]
        exact Nat.le_succ_of_le ih
      · rw [List.filter_cons_of_neg (by simp [hq])]
        exact ih

theorem length_filter_lt_of_witness (l : List Nat) (p q : Nat → Bool)
    (h : ∀ x, p x = true → q x = true) (x : Nat) (hx : x ∈ l) (hqx : q x = true)
    (hpx : p x = false) : (l.filter p).length < (l.filter q).length := by
  induction l with
  | nil => cases hx
  | cons a lt ih =>
    rcases List.mem_cons.mp hx with rfl | hmem
    · rw [List.filter_cons_of_neg (by simp [hpx]), List.filter_cons_of_pos hqx]
      exact Nat.lt_succ_of_le (length_filter_le_of_imp lt p q h)
    · by_cases hp : p a = true
      · rw [List.filter_cons_of_pos hp, List.filter_cons_of_pos (h a hp)]
        simpa using ih hmem
      · rw [List.filter_cons_of_neg (by simp [hp])]
        by_cases hq : q a = true
        · rw [List.filter_cons_of_pos hq]
          exact Nat.lt_succ_of_lt (ih hmem)
        · rw [List.filter_cons_of_neg (by simp [hq])]
          exact ih hmem

/-- The distinct node ids of a predicate store. -/
def storeIds (store : List (Nat × PredShape)) : List Nat :=
  (store.map Prod.fst).dedup

/-- The number of store nodes not yet visited: the bound on the remaining
recursion depth of the visitor. -/
def unvisitedCount (store : List (Nat × PredShape)) (visited : List Nat) : Nat :=
  ((storeIds store).filter (fun i => !(visited.contains i))).length

theorem unvisitedCount_le_of_subset (store : List (Nat × PredShape))
    (v1 v2 : List Nat) (h : ∀ x ∈ v1, x ∈ v2) :
    unvisitedCount store v2 ≤ unvisitedCount store v1 := by
  apply length_filter_le_of_imp
  intro x hx
  simp only [Bool.not_eq_true'] at hx ⊢
  by_contra hc
  rw [Bool.not_eq_false] at hc
  have hm1 : x ∈ v1 := by simpa using hc
  have hm2 : x ∈ v2 := h x hm1
  simp [hm2] at hx

theorem unvisitedCount_cons_lt (store : List (Nat × PredShape))
    (visited : List Nat) (pid : Nat) (hmem : pid ∈ storeIds store)
    (hnv : visited.contains pid = false) :
    unvisitedCount store (pid :: visited) < unvisitedCount store visited := by
  apply length_filter_lt_of_witness _ _ _ _ pid hmem
  · simp only [Bool.not_eq_true']
    exact hnv
  · simp
  · intro x hx
    simp only [Bool.not_eq_true'] at hx ⊢
    by_contra hc
    rw [Bool.not_eq_false] at hc
    have hm1 : x ∈ visited := by simpa using hc
    have hm2 : x ∈ pid :: visited := List.mem_cons_of_mem _ hm1
    simp [hm2] at hx

theorem visit_visited_mono (store : List (Nat × PredShape))
    (cats : List (Nat × Option Nat)) (fc : Bool) : ∀ fuel : Nat,
    (∀ visited pid q v', visitPred store cats fc fuel visited pid = .ok (q, v') →
      ∀ x ∈ visited, x ∈ v')
    ∧ (∀ visited cs qs v', visitList store cats fc fuel visited cs = .ok (qs, v') →
      ∀ x ∈ visited, x ∈ v') := by
  intro fuel
  induction fuel with
  | zero =>
    constructor
    · intro visited pid q v' h
      simp [visitPred] at h
    · intro visited cs qs v' h x hx
      cases cs with
      | nil =>
        simp only [visitList, Except.ok.injEq, Prod.mk.injEq] at h
        rw [← h.2]
        exact hx
      | cons c cs' =>
        simp [visitList, visitPred, Bind.bind, Except.bind] at h
  | succ fuel ih =>
    have P1 : ∀ visited pid q v',
        visitPred store cats fc (fuel + 1) visited pid = .ok (q, v') →
        ∀ x ∈ visited, x ∈ v' := by
      intro visited pid q v' h x hx
      rw [visitPred] at h
      split at h
      · exact absurd h (by simp)
      · split at h
        · exact absurd h (by simp)
        · split at h
          · rw [Except.ok.injEq, Prod.mk.injEq] at h
            rw [← h.2]
            exact List.mem_cons_of_mem _ hx
          · rw [Except.ok.injEq, Prod.mk.injEq] at h
            rw [← h.2]
            exact List.mem_cons_of_mem _ hx
          · rw [Except.ok.injEq, Prod.mk.injEq] at h
            rw [← h.2]
            exact List.mem_cons_of_mem _ hx
          · rw [Except.ok.injEq, Prod.mk.injEq] at h
            rw [← h.2]
            exact List.mem_cons_of_mem _ hx
          · -- allShape
            obtain ⟨a, ha, h2⟩ := exceptBind_eq_ok.mp h
            obtain ⟨qs, v⟩ := a
            rw [Except.ok.injEq, Prod.mk.injEq] at h2
            rw [← h2.2]
            exact ih.2 _ _ qs v ha x (List.mem_cons_of_mem _ hx)
          · -- anyShape
            obtain ⟨a, ha, h2⟩ := exceptBind_eq_ok.mp h
            obtain ⟨qs, v⟩ := a
            rw [Except.ok.injEq, Prod.mk.injEq] at h2
            rw [← h2.2]
            exact ih.2 _ _ qs v ha x (List.mem_cons_of_mem _ hx)
          · -- notShape
            obtain ⟨a, ha, h2⟩ := exceptBind_eq_ok.mp h
            obtain ⟨q1, v⟩ := a
            rw [Except.ok.injEq, Prod.mk.injEq] at h2
            rw [← h2.2]
            exact ih.1 _ _ q1 v ha x (List.mem_cons_of_mem _ hx)
          · -- inCatalogueShape
            split at h
            · exact absurd h (by simp)
            · split at h
              · rw [Except.ok.injEq, Prod.mk.injEq] at h
                rw [← h.2]
                exact List.mem_cons_of_mem _ hx
              · split at h
                · exact absurd h (by simp)
                · rw [Except.ok.injEq, Prod.mk.injEq] at h
                  rw [← h.2]
                  exact List.mem_cons_of_mem _ hx
                · obtain ⟨a, ha, h2⟩ := exceptBind_eq_ok.mp h
                  obtain ⟨q1, v⟩ := a
                  rw [Except.ok.injEq, Prod.mk.injEq] at h2
                  rw [← h2.2]
                  exact ih.1 _ _ q1 v ha x (List.mem_cons_of_mem _ hx)
    refine ⟨P1, ?_⟩
    intro visited cs
    induction cs generalizing visited with
    | nil =>
      intro qs v' h x hx
      simp only [visitList, Except.ok.injEq, Prod.mk.injEq] at h
      rw [← h.2]
      exact hx
    | cons c cs' ihc =>
      intro qs v' h x hx
      rw [visitList] at h
      obtain ⟨a, ha, h2⟩ := exceptBind_eq_ok.mp h
      obtain ⟨q1, v1⟩ := a
      obtain ⟨b, hb, h3⟩ := exceptBind_eq_ok.mp h2
      obtain ⟨qs2, v2⟩ := b
      rw [Except.ok.injEq, Prod.mk.injEq] at h3
      rw [← h3.2]
      exact ihc v1 qs2 v2 hb x (P1 visited c q1 v1 ha x hx)

theorem exceptBind_eq_error {ε α β : Type} {x : Except ε α} {f : α → Except ε β}
    {e : ε} : (x >>= f) = .error e ↔
      x = .error e ∨ (∃ a, x = .ok a ∧ f a = .error e) := by
  cases x <;> simp [Bind.bind, Except.bind]

theorem mem_storeIds_of_lookup (store : List (Nat × PredShape)) (pid : Nat)
    (shape : PredShape) (h : store.lookup pid = some shape) :
    pid ∈ storeIds store := by
  unfold storeIds
  rw [List.mem_dedup]
  induction store with
  | nil => cases h
  | cons kv rest ih =>
    unfold List.lookup at h
    split at h
    · next hbeq =>
      rw [List.map_cons, List.mem_cons]
      left
      exact eq_of_beq hbeq
    · rw [List.map_cons, List.mem_cons]
      right
      exact ih h

theorem visit_no_fuelOut (store : List (Nat × PredShape))
    (cats : List (Nat × Option Nat)) (fc : Bool) : ∀ fuel : Nat,
    (∀ visited pid, unvisitedCount store visited < fuel →
      visitPred store cats fc fuel visited pid ≠ .error .fuelOut)
    ∧ (∀ visited cs, unvisitedCount store visited < fuel →
      visitList store cats fc fuel visited cs ≠ .error .fuelOut) := by
  intro fuel
  induction fuel with
  | zero =>
    constructor
    · intro visited pid hcount
      exact absurd hcount (Nat.not_lt_zero _)
    · intro visited cs hcount
      exact absurd hcount (Nat.not_lt_zero _)
  | succ fuel ih =>
    have P1 : ∀ visited pid, unvisitedCount store visited < fuel + 1 →
        visitPred store cats fc (fuel + 1) visited pid ≠ .error .fuelOut := by
      intro visited pid hcount hcontra
      rw [visitPred] at hcontra
      split at hcontra
      · simp at hcontra
      · next hnc0 =>
        split at hcontra
        · simp at hcontra
        · next shape heq =>
          have hpidmem : pid ∈ storeIds store :=
            mem_storeIds_of_lookup store pid shape heq
          have hnc : visited.contains pid = false := by
            rwa [Bool.not_eq_true] at hnc0
          have hlt : unvisitedCount store (pid :: visited) < fuel := by
            have h1 := unvisitedCount_cons_lt store visited pid hpidmem hnc
            omega
          split at hcontra
          · simp at hcontra
          · simp at hcontra
          · simp at hcontra
          · simp at hcontra
          · rcases exceptBind_eq_error.mp hcontra with h1 | ⟨a, -, h2⟩
            · exact ih.2 _ _ hlt h1
            · obtain ⟨qs, v⟩ := a
              simp at h2
          · rcases exceptBind_eq_error.mp hcontra with h1 | ⟨a, -, h2⟩
            · exact ih.2 _ _ hlt h1
            · obtain ⟨qs, v⟩ := a
              simp at h2
          · rcases exceptBind_eq_error.mp hcontra with h1 | ⟨a, -, h2⟩
            · exact ih.1 _ _ hlt h1
            · obtain ⟨q1, v⟩ := a
              simp at h2
          · split at hcontra
            · simp at hcontra
            · split at hcontra
              · simp at hcontra
              · split at hcontra
                · simp at hcontra
                · simp at hcontra
                · rcases exceptBind_eq_error.mp hcontra with h1 | ⟨a, -, h2⟩
                  · exact ih.1 _ _ hlt h1
                  · obtain ⟨q1, v⟩ := a
                    simp at h2
    refine ⟨P1, ?_⟩
    intro visited cs
    induction cs generalizing visited with
    | nil =>
      intro hcount hcontra
      simp [visitList] at hcontra
    | cons c cs' ihc =>
      intro hcount hcontra
      rw [visitList] at hcontra
      rcases exceptBind_eq_error.mp hcontra with h1 | ⟨a, ha, h2⟩
      · exact P1 visited c hcount h1
      · obtain ⟨q1, v1⟩ := a
        rcases exceptBind_eq_error.mp h2 with h3 | ⟨b, -, h4⟩
        · have hsub : ∀ x ∈ visited, x ∈ v1 :=
            (visit_visited_mono store cats fc (fuel + 1)).1 visited c q1 v1 ha
          have hle := unvisitedCount_le_of_subset store visited v1 hsub
          exact ihc v1 (by omega) h3
        · obtain ⟨qs2, v2⟩ := b
          simp at h4

/-- C5: predicate compilation terminates on every predicate graph,
including cyclic `InCatalogue` chains.  The per-query visited set keyed by
node identity is threaded through the recursion, so the recursion depth is
bounded by the number of distinct nodes: with any stack allowance (fuel)
exceeding the store's unvisited-node count, evaluation never exhausts it —
it returns a compiled filter or raises.  Revisiting an already-visited
node raises the recursion error, and in particular compiling the query of
a catalogue `a` whose predicate is `InCatalogue(a)` (node `0` referencing
catalogue `0` whose own predicate is node `0`) raises
`PredicateRecursionError` instead of looping. -/
theorem C5_predicate_compilation_terminates :
    (∀ (store : List (Nat × PredShape)) (cats : List (Nat × Option Nat))
        (fc : Bool) (pid fuel : Nat), unvisitedCount store [] < fuel →
        visitPred store cats fc fuel [] pid ≠ .error .fuelOut)
    ∧ (∀ (store : List (Nat × PredShape)) (cats : List (Nat × Option Nat))
        (fc : Bool) (fuel : Nat) (visited : List Nat) (pid : Nat),
        visited.contains pid = true →
        visitPred store cats fc (fuel + 1) visited pid = .error .recursion)
    ∧ visitPred [(0, .inCatalogueShape (some 0))] [(0, some 0)] false 2 [] 0 =
        .error .recursion := by
  refine ⟨?_, ?_, ?_⟩
  · intro store cats fc pid fuel h
    exact (visit_no_fuelOut store cats fc fuel).1 [] pid h
  · intro store cats fc fuel visited pid hvis
    rw [visitPred, if_pos hvis]
  · simp [visitPred, List.lookup, Bind.bind, Except.bind]

/-- Witness for C5 at the self-referential catalogue: with fuel `2` (above
the single-node bound) the compilation of `InCatalogue(a)` from catalogue
`a` does not exhaust the stack, and a revisited node yields the recursion
error. -/
theorem C5_predicate_compilation_terminates_witness :
    visitPred [(0, .inCatalogueShape (some 0))] [(0, some 0)] false 2 [] 0 ≠
        .error .fuelOut
    ∧ visitPred [(0, .hasShape "a")] [] false 3 [5] 5 = .error .recursion :=
  ⟨C5_predicate_compilation_terminates.1 [(0, .inCatalogueShape (some 0))]
      [(0, some 0)] false 0 2 (by decide),
    C5_predicate_compilation_terminates.2.1 [(0, .hasShape "a")] [] false 2 [5] 5
      (by decide)⟩

end Tscat
